import Mathlib

/-!
# Verification development for the storage layer

Shallow embedding of

* `include/my_compare.h`: the bit-field helpers `get_rec_bits` / `set_rec_bits` and the
  key-length prefix macros `get_key_length` / `store_key_length_inc`;
* `src/ydb.c`: the environment / database handle protocol.

Machine integers are natural numbers (or integers) with explicit reductions modulo `2 ^ w`
where the C code truncates.  Pointers into byte buffers are addresses into a memory
`Nat → Nat`.  Calls into collaborators (file system, allocator, Logger, Cache, Tree) are
answered by an explicit `World` record and recorded in a list of `Call`s.
-/

/-- C `~x` on a 32-bit operand (`int` or `u_int32_t`), as the bit pattern of the result. -/
def cnot32 (x : Nat) : Nat := 2 ^ 32 - 1 - x % 2 ^ 32

namespace MyCompare

/-! ## `my_compare.h`: bit fields -/

/-- `get_rec_bits(ptr, ofs, len)`: `ptr` is the pair `(ptr[0], ptr[1])`.
`val` is a `uint16`; the result is cast to `uchar`. -/
def get_rec_bits (ptr : Nat × Nat) (ofs len : Nat) : Nat :=
  let val := ptr.1
  let val := if ofs + len > 8 then val ||| (ptr.2 <<< 8) % 2 ^ 16 else val
  ((val >>> ofs) &&& ((1 <<< len) % 2 ^ 32 - 1)) % 2 ^ 8

/-- `set_rec_bits(bits, ptr, ofs, len)`: returns the new `(ptr[0], ptr[1])`.
Both stores are cast to `uchar`; `len - 8 + ofs` is computed in `unsigned int`
(`len` is a `uint`), `8 - ofs` in `int` (the model is for `ofs ≤ 8`). -/
def set_rec_bits (bits : Nat) (ptr : Nat × Nat) (ofs len : Nat) : Nat × Nat :=
  let p0 := ((ptr.1 &&& cnot32 (((1 <<< len) % 2 ^ 32 - 1) <<< ofs)) ||| (bits <<< ofs)) % 2 ^ 8
  let p1 :=
    if ofs + len > 8 then
      ((ptr.2 &&& cnot32 ((1 <<< ((len + 2 ^ 32 - 8 + ofs) % 2 ^ 32)) % 2 ^ 32 - 1)) |||
        (bits >>> (8 - ofs))) % 2 ^ 8
    else ptr.2
  (p0, p1)

/-- `clr_rec_bits(bit_ptr, bit_ofs, bit_len)`. -/
def clr_rec_bits (ptr : Nat × Nat) (ofs len : Nat) : Nat × Nat :=
  set_rec_bits 0 ptr ofs len

/-! ## `my_compare.h`: key length prefix -/

/-- `HA_MAX_KEY_LENGTH`. -/
def HA_MAX_KEY_LENGTH : Nat := 1000

/-- Byte-addressed memory: address to byte. -/
abbrev Mem := Nat → Nat

/-- Store of one `uchar` at address `a`. -/
def Mem.write (m : Mem) (a v : Nat) : Mem := fun x => if x = a then v % 2 ^ 8 else m x

/-- Modelled from the spec: `mi_int2store` (its header `myisampack.h` is not part of the
sources at hand); the 2-byte length that follows the sentinel is stored little-endian,
low byte first. -/
def mi_int2store (m : Mem) (t a : Nat) : Mem :=
  let def_temp := a % 2 ^ 32
  (m.write t def_temp).write (t + 1) (def_temp >>> 8)

/-- Modelled from the spec: `mi_uint2korr` (its header `myisampack.h` is not part of the
sources at hand); reads the little-endian 2-byte length as a `uint16`. -/
def mi_uint2korr (m : Mem) (a : Nat) : Nat :=
  (m a + (m (a + 1) <<< 8) % 2 ^ 16) % 2 ^ 16

/-- The macro `get_key_length(length,key)`: returns `(length, key)` after the macro. -/
def get_key_length (m : Mem) (key : Nat) : Nat × Nat :=
  if m key ≠ 255 then (m key, key + 1)
  else (mi_uint2korr m (key + 1), key + 3)

/-- The macro `get_key_length_rdonly(length,key)`: the pointer is not advanced. -/
def get_key_length_rdonly (m : Mem) (key : Nat) : Nat :=
  if m key ≠ 255 then m key else mi_uint2korr m (key + 1)

/-- The macro `store_key_length_inc(key,length)`: returns the memory and `key` after it. -/
def store_key_length_inc (m : Mem) (key length : Nat) : Mem × Nat :=
  if length < 255 then (m.write key length, key + 1)
  else (mi_int2store (m.write key 255) (key + 1) length, key + 3)

/-- The macro `size_to_store_key_length(length)`. -/
def size_to_store_key_length (length : Nat) : Nat := if length < 255 then 1 else 3

/-! ## `my_compare.h`: character comparison -/

/-- The comparison functions `charset_info->coll` offers to the `ha_compare_*` functions.
`CHARSET_INFO` is declared in `m_ctype.h`, which is not among the sources: the collation is
a parameter.  A string is the list of its bytes (pointer and length in C); the last
argument of `strnncoll` is its prefix flag, the last of `strnncollsp_nchars` its flags. -/
structure Collation where
  strnncollsp : List Char → List Char → Int
  strnncoll : List Char → List Char → Bool → Int
  strnncollsp_nchars : List Char → List Char → Nat → Nat → Int

/-- `ha_compare_char_varying(charset_info, a, a_length, b, b_length, b_is_prefix)`. -/
def ha_compare_char_varying (charset_info : Collation) (a b : List Char)
    ( b_is_prefix : Bool) : Int :=
  if b_is_prefix = false then charset_info.strnncollsp a b
  else charset_info.strnncoll a b true

/-- `ha_compare_char_fixed(charset_info, a, a_length, b, b_length, nchars, b_is_prefix)`.
The value of the flag `MY_STRNNCOLLSP_NCHARS_EMULATE_TRIMMED_TRAILING_SPACES` (from
`m_ctype.h`) is a parameter. -/
def ha_compare_char_fixed (MY_STRNNCOLLSP_NCHARS_EMULATE_TRIMMED_TRAILING_SPACES : Nat)
    (charset_info : Collation) (a b : List Char) (nchars : Nat) ( b_is_prefix : Bool) : Int :=
  if b_is_prefix = false then
    charset_info.strnncollsp_nchars a b nchars
      MY_STRNNCOLLSP_NCHARS_EMULATE_TRIMMED_TRAILING_SPACES
  else charset_info.strnncoll a b true

/-- `ha_compare_word(charset_info, a, a_length, b, b_length)`. -/
def ha_compare_word (charset_info : Collation) (a b : List Char) : Int :=
  charset_info.strnncollsp a b

/-- `ha_compare_word_prefix(charset_info, a, a_length, b, b_length)`. -/
def ha_compare_word_prefix (charset_info : Collation) (a b : List Char) : Int :=
  charset_info.strnncoll a b true

/-- `ha_compare_word_or_prefix(charset_info, a, a_length, b, b_length, b_is_prefix)`. -/
def ha_compare_word_or_prefix (charset_info : Collation) (a b : List Char)
    ( b_is_prefix : Bool) : Int :=
  if b_is_prefix = false then ha_compare_word charset_info a b
  else ha_compare_word_prefix charset_info a b

/-- Bit `j` of the 16-bit window `ptr[0] | ptr[1] << 8` of a 2-byte buffer. -/
def windowBit (ptr : Nat × Nat) (j : Nat) : Bool :=
  if j < 8 then ptr.1.testBit j else ptr.2.testBit (j - 8)

/-- Three-way comparison of two sequences of character weights, the first difference
deciding and a proper initial segment being smaller: negative, zero or positive. -/
def cmpWeights : List Nat → List Nat → Int
  | [], [] => 0
  | [], _ :: _ => -1
  | _ :: _, [] => 1
  | x :: xs, y :: ys => if x < y then -1 else if y < x then 1 else cmpWeights xs ys

/-- The string `s` followed by the spaces that bring it to `n` characters. -/
def padTo (n : Nat) (s : List Char) : List Char :=
  s ++ List.replicate (n - s.length) (Char.ofNat 32)

/-- Modelled from the spec: a pad-space collation (collation internals are not among the
sources), for the character weights `wt`.  `strnncollsp`: "the shorter of two
otherwise-equal-prefix strings is treated as if padded with spaces".  `strnncoll` with the
prefix flag: the first string is compared against the declared key length of the second,
"trailing spaces are compared literally with no padding".  `strnncollsp_nchars`:
"virtually reconstructs trailing spaces up to `nchars` characters", "if either side has
more than `nchars` characters, only the first `nchars` are considered". -/
def padSpaceCollation (wt : Char → Nat) : Collation :=
  { strnncollsp := fun a b =>
      cmpWeights ((padTo (max a.length b.length) a).map wt)
        ((padTo (max a.length b.length) b).map wt),
    strnncoll := fun a b is_pre =>
      cmpWeights ((if is_pre then a.take b.length else a).map wt) (b.map wt),
    strnncollsp_nchars := fun a b nchars _ =>
      cmpWeights ((padTo nchars (a.take nchars)).map wt)
        ((padTo nchars (b.take nchars)).map wt) }

end MyCompare

namespace Xids

/-! ## `xids-internal.h`: the chain of nested transaction identifiers -/

/-- The record `struct xids_t`: `num_stored_xids` is a `u_int8_t`, `ids[0]` is the outermost
transaction. -/
structure XIDS_S where
  num_stored_xids : Nat
  ids : List Nat
  deriving DecidableEq, Repr

/-- The failure of `push`. -/
inductive XidError where
  | CapacityExceeded
  deriving DecidableEq, Repr

/-- Modelled from the spec: `root()`, the chain of length 0 (the functions on `xids_t` are
not among the sources). -/
def root : XIDS_S := { num_stored_xids := 0, ids := [] }

/-- Modelled from the spec: `push(chain, id)`, "new chain = `chain` with `id` appended; fails
`CapacityExceeded` if `chain.length == capacity − 1`" (the functions on `xids_t` are not
among the sources; `capacity` is `MAX_TRANSACTION_RECORDS`).  The length is stored in the
`u_int8_t` field. -/
def push (capacity : Nat) (chain : XIDS_S) (id : Nat) : Except XidError XIDS_S :=
  if chain.num_stored_xids = capacity - 1 then .error .CapacityExceeded
  else .ok { num_stored_xids := (chain.num_stored_xids + 1) % 2 ^ 8, ids := chain.ids ++ [id] }

/-- A chain after the pushes of the given identifiers, one after the other; a push that
fails leaves the chain as it is. -/
def pushAll (capacity : Nat) (chain : XIDS_S) : List Nat → XIDS_S
  | [] => chain
  | id :: rest =>
    match push capacity chain id with
    | .ok c => pushAll capacity c rest
    | .error _ => pushAll capacity chain rest

end Xids

namespace Ydb

/-! ## `ydb.c`: data model -/

/-- Contents of a NUL-terminated C string, without the terminator. -/
abbrev CStr := List Char

/-- String literal as a C string. -/
def lit (s : String) : CStr := s.toList

/-! `errno.h` / `stdlib.h` values (Linux). -/

/-- `EINVAL`. -/
def EINVAL : Int := 22
/-- `ENOMEM`. -/
def ENOMEM : Int := 12
/-- `ENOENT`. -/
def ENOENT : Int := 2
/-- `EEXIST`. -/
def EEXIST : Int := 17
/-- `ENAMETOOLONG`. -/
def ENAMETOOLONG : Int := 36
/-- `EXIT_SUCCESS`. -/
def EXIT_SUCCESS : Int := 0
/-- `PATH_MAX` (`limits.h`). -/
def PATH_MAX : Nat := 4096

/-- Constants of the headers `db.h` and `ydb-internal.h`, which are not among the sources:
the flag bits and the sizes of the handle structures are parameters of the model. -/
structure Consts where
  DB_CREATE : Nat
  DB_EXCL : Nat
  DB_RDONLY : Nat
  DB_PRIVATE : Nat
  DB_INIT_LOG : Nat
  DB_INIT_MPOOL : Nat
  DB_INIT_TXN : Nat
  sizeof_DB_ENV : Nat
  sizeof_db_env_internal : Nat
  sizeof_DB : Nat
  sizeof_db_internal : Nat
  DB_BTREE : Nat
  sizeof_DB_TXN : Nat
  sizeof_db_txn_internal : Nat
  DB_DUP : Nat
  DB_DUPSORT : Nat
  TOKU_DB_DUP : Nat
  TOKU_DB_DUPSORT : Nat
  sizeof_DBC : Nat
  sizeof_dbc_internal : Nat

/-- The stream `fopen` returns for `DB_CONFIG`: the bytes `getc` delivers, the `errno` of a
failing read after them (`ferror`), and the result of `fclose`. -/
structure ConfigFile where
  content : List Char
  ferror : Option Int
  fclose : Int

/-- Answers of the collaborators: allocator, file system, Logger, Cache and Tree.
A handle is a number, `0` being the null handle.  A callee that receives the address of a
handle field (`&env->i->logger`) answers with its result and the value it leaves in the
field. -/
structure World where
  /-- `toku_malloc(n)` returns non-null. -/
  malloc_ok : Nat → Bool
  /-- `toku_realloc(p, n)` returns non-null. -/
  realloc_ok : Nat → Bool
  /-- `stat(path, &buf)`: `0`, or the `errno` of the failure. -/
  stat : CStr → Int
  /-- `fopen(path, "r")`: the stream, or the `errno` of the failure. -/
  fopen : CStr → Except Int ConfigFile
  /-- `tokulogger_create_and_open_logger(dir, &logger)`. -/
  logger_open : CStr → Nat → Int × Nat
  /-- `tokulogger_log_close(&logger)`. -/
  logger_close : Nat → Int × Nat
  /-- `brt_create_cachetable(&ct, size, ZERO_LSN, logger)`. -/
  cachetable_create : Nat → Int → Nat → Int × Nat
  /-- `toku_cachetable_close(&ct)`. -/
  cachetable_close : Nat → Int × Nat
  /-- `brt_create(&brt)`. -/
  brt_create : Nat → Int × Nat
  /-- `brt_open(brt, full_fname, fname, dbname, is_create, only_create, ct, txn)`. -/
  brt_open : Nat → CStr → CStr → Option CStr → Nat → Nat → Nat → Nat → Int
  /-- `close_brt(brt)`. -/
  close_brt : Nat → Int
  /-- `brt_remove_subdb(brt, dbname, flags)`. -/
  brt_remove_subdb : Nat → CStr → Nat → Int
  /-- `tokutxn_begin(parent, &tokutxn, id, logger)`: the result and the handle stored. -/
  tokutxn_begin : Nat → Nat → Nat → Int × Nat
  /-- `tokulogger_log_commit(tokutxn)`. -/
  tokulogger_log_commit : Nat → Int
  /-- `unlink(path)`. -/
  unlink : CStr → Int
  /-- `rename(from, to)`. -/
  rename : CStr → CStr → Int
  /-- `brt_insert(brt, key, data, db, txn)`. -/
  brt_insert : Nat → List Nat → List Nat → Nat → Int
  /-- `brt_lookup(brt, key, data, db)`: the result and the value stored in `data`. -/
  brt_lookup : Nat → List Nat → Int × List Nat
  /-- `brt_delete(brt, key, db)`. -/
  brt_delete : Nat → List Nat → Int
  /-- `brt_cursor(brt, &c)`: the result and the cursor handle stored. -/
  brt_cursor : Nat → Int × Nat
  /-- `brt_cursor_get(c, key, data, flag, db, txn)`: the result and what is stored in `key`
  and `data`. -/
  brt_cursor_get : Nat → List Nat → List Nat → Nat → Nat → Int × List Nat × List Nat
  /-- `brt_cursor_close(c)`. -/
  brt_cursor_close : Nat → Int
  /-- `brt_cursor_delete(c, flags)`. -/
  brt_cursor_delete : Nat → Nat → Int
  /-- `brt_set_bt_compare(brt, bt_compare)`, the function given by its identity. -/
  brt_set_bt_compare : Nat → Nat → Int
  /-- `brt_set_dup_compare(brt, dup_compare)`, the function given by its identity. -/
  brt_set_dup_compare : Nat → Nat → Int
  /-- `brt_set_flags(brt, tflags)`. -/
  brt_set_flags : Nat → Nat → Int
  /-- `brt_set_nodesize(brt, pagesize)`. -/
  brt_set_nodesize : Nat → Nat → Int

/-- Collaborator calls, in the order they are made. -/
inductive Call where
  | logger_open (dir : CStr)
  | logger_close (logger : Nat)
  | cachetable_create (size : Int) (logger : Nat)
  | cachetable_close (ct : Nat)
  | brt_create
  | brt_open (brt : Nat) (full_fname fname : CStr) (dbname : Option CStr)
      (is_create only_create ct txn : Nat)
  | close_brt (brt : Nat)
  | free_env
  | free_db
  | brt_remove_subdb (brt : Nat) (dbname : CStr) (flags : Nat)
  | tokutxn_begin (parent id logger : Nat)
  | tokulogger_log_commit (tokutxn : Nat)
  | free_txn
  | unlink (path : CStr)
  | rename (src dst : CStr)
  | brt_insert (brt : Nat) (key data : List Nat) (txn : Nat)
  | brt_lookup (brt : Nat) (key : List Nat)
  | brt_delete (brt : Nat) (key : List Nat)
  | brt_cursor (brt : Nat)
  | brt_cursor_get (c : Nat) (key data : List Nat) (flag txn : Nat)
  | brt_cursor_close (c : Nat)
  | brt_cursor_delete (c flags : Nat)
  | brt_set_bt_compare (brt fn : Nat)
  | brt_set_dup_compare (brt fn : Nat)
  | brt_set_flags (brt tflags : Nat)
  | brt_set_nodesize (brt pagesize : Nat)
  | free_dbc
  deriving DecidableEq, Repr

/-- The record `struct __toku_db_env_internal`.  `errcall` is the identity of the installed
callback; strings are `none` when the pointer is null.  `ref_count` is an `int`; its
overflow is not modelled. -/
structure DbEnvInternal where
  ref_count : Int
  open_flags : Nat
  open_mode : Int
  errcall : Nat
  errpfx : Option CStr
  dir : Option CStr
  tmp_dir : Option CStr
  lg_dir : Option CStr
  data_dir : Option CStr
  cachetable_size : Int
  cachetable : Nat
  logger : Nat
  deriving DecidableEq, Repr

/-- The fields of `struct __toku_db_internal` that `ydb.c` uses. -/
structure DbInternal where
  freed : Int
  header : Nat
  database_number : Int
  full_fname : Option CStr
  database_name : Option CStr
  open_flags : Nat
  open_mode : Int
  brt : Nat
  deriving DecidableEq, Repr

/-- `toku_strdup(s)`: a copy, or null when the allocation of `strlen(s) + 1` bytes fails. -/
def toku_strdup (w : World) (s : CStr) : Option CStr :=
  if w.malloc_ok (s.length + 1) then some s else none

/-! ## Reference counting -/

/-- `db_env_add_ref`. -/
def db_env_add_ref (env : DbEnvInternal) : DbEnvInternal :=
  { env with ref_count := env.ref_count + 1 }

/-- `db_env_opened`. -/
def db_env_opened (env : DbEnvInternal) : Bool := env.cachetable != 0

/-- `__toku_db_env_close(env, flags)`: result, the Environment afterwards (`none` once it
is freed) and the collaborator calls made. -/
def __toku_db_env_close (w : World) (env : DbEnvInternal) (flags : Nat) :
    Int × Option DbEnvInternal × List Call :=
  if flags ≠ 0 then (EINVAL, some env, [])
  else
    let r0 : Int := if env.cachetable ≠ 0 then (w.cachetable_close env.cachetable).1 else 0
    let c0 := if env.cachetable ≠ 0 then [Call.cachetable_close env.cachetable] else []
    let r1 : Int := if env.logger ≠ 0 then (w.logger_close env.logger).1 else 0
    let c1 := if env.logger ≠ 0 then [Call.logger_close env.logger] else []
    let r := if r0 ≠ 0 then r0 else if r1 ≠ 0 then r1 else 0
    (r, none, c0 ++ c1 ++ [Call.free_env])

/-- `db_env_unref`: the Environment afterwards (`none` once freed) and the calls made. -/
def db_env_unref (w : World) (env : DbEnvInternal) : Option DbEnvInternal × List Call :=
  let env := { env with ref_count := env.ref_count - 1 }
  if env.ref_count = 0 then
    let r := __toku_db_env_close w env 0
    (r.2.1, r.2.2)
  else (some env, [])

/-! ## Path construction -/

/-- `construct_full_name_in_buf(dir, fname, full, length)`: the result and the string left
in `full` (`full_ok` is false for a null `full`).  `snprintf` returns the length of its
argument and stores at most `size - 1` characters of it. -/
def construct_full_name_in_buf (dir fname : CStr) (full_ok : Bool) (length : Nat) :
    Int × CStr :=
  if !full_ok then (EINVAL, [])
  else
    let l := dir.length
    let full := dir.take (length - 1)
    if l ≥ length then (ENAMETOOLONG, full)
    else if (l = 0 ∨ full.getLast? ≠ some (Char.ofNat 47)) ∧ l + 1 = length then
      (ENAMETOOLONG, full)
    else
      let slash := (l = 0 ∨ full.getLast? ≠ some (Char.ofNat 47)) ∧
        fname.head? ≠ some (Char.ofNat 47)
      let full := if slash then full ++ [Char.ofNat 47] else full
      let l := if slash then l + 1 else l
      let full := full ++ fname.take (length - l - 1)
      let l := l + fname.length
      if l ≥ length then (ENAMETOOLONG, full) else (0, full)

/-- `construct_full_name(dir, fname)`: the allocated name, or null. -/
def construct_full_name (w : World) (dir fname : CStr) : Option CStr :=
  let dir := if fname.head? = some (Char.ofNat 47) then [] else dir
  let len := dir.length + fname.length + 2
  let r := construct_full_name_in_buf dir fname (w.malloc_ok len) len
  if r.1 ≠ 0 then none else some r.2

/-! ## Environment configuration setters -/

/-- `__toku_db_env_set_cachesize`: `long` has 64 bits, the arguments are `u_int32_t`. -/
def __toku_db_env_set_cachesize (env : DbEnvInternal) (gbytes bytes : Nat) (_ncache : Int) :
    Int × DbEnvInternal :=
  (0, { env with cachetable_size :=
    ((((gbytes % 2 ^ 32) <<< 30) + bytes % 2 ^ 32 : Nat) : Int) })

/-- `__toku_db_env_set_data_dir`. -/
def __toku_db_env_set_data_dir (w : World) (env : DbEnvInternal) (dir : Option CStr) :
    Int × DbEnvInternal :=
  if db_env_opened env then (EINVAL, env)
  else match dir with
    | none => (EINVAL, env)
    | some d =>
      let env := { env with data_dir := toku_strdup w d }
      (if env.data_dir.isSome then 0 else ENOMEM, env)

/-- `__toku_db_env_set_lg_dir`. -/
def __toku_db_env_set_lg_dir (w : World) (env : DbEnvInternal) (dir : Option CStr) :
    Int × DbEnvInternal :=
  if db_env_opened env then (EINVAL, env)
  else match dir with
    | some d =>
      let env := { env with lg_dir := toku_strdup w d }
      if env.lg_dir.isNone then (ENOMEM, env) else (0, env)
    | none => (0, { env with lg_dir := none })

/-- `__toku_db_env_set_tmp_dir`. -/
def __toku_db_env_set_tmp_dir (w : World) (env : DbEnvInternal) (tmp_dir : Option CStr) :
    Int × DbEnvInternal :=
  if db_env_opened env then (EINVAL, env)
  else match tmp_dir with
    | none => (EINVAL, env)
    | some d =>
      let env := { env with tmp_dir := toku_strdup w d }
      (if env.tmp_dir.isSome then 0 else ENOMEM, env)

/-! ## Reading `DB_CONFIG` -/

/-- `db_env_parse_config_line`. -/
def db_env_parse_config_line (w : World) (dbenv : DbEnvInternal) (command value : CStr) :
    Int × DbEnvInternal :=
  if command = lit "set_data_dir" then __toku_db_env_set_data_dir w dbenv (some value)
  else if command = lit "set_tmp_dir" then __toku_db_env_set_tmp_dir w dbenv (some value)
  else if command = lit "set_lg_dir" then __toku_db_env_set_lg_dir w dbenv (some value)
  else (-1, dbenv)

/-- `isspace` in the C locale: space, `\t`, `\n`, `\v`, `\f`, `\r`. -/
def isspace (c : Char) : Bool := c.toNat = 32 || (9 ≤ c.toNat && c.toNat ≤ 13)

/-- The C string that starts where `s` starts: `s` up to its first NUL. -/
def cstr (s : List Char) : CStr := s.takeWhile (fun c => c.toNat != 0)

/-- The part of `db_env_read_config` that separates one line (the bytes of `linebuffer`
below `end`) into `command` and the `value` handed to `db_env_parse_config_line`.
`command` skips leading white space; `temp` runs to the next white space or `end`;
`value` starts one past `temp` and skips white space, never beyond `end`; when
`value < end` the trailing white space is cut; otherwise the value is `""`. -/
def split_line (line : List Char) : CStr × CStr :=
  let command := line.dropWhile isspace
  let temp := command.dropWhile (fun c => !isspace c)
  let value := (temp.drop 1).dropWhile isspace
  (cstr (command.takeWhile (fun c => !isspace c)),
   if value ≠ [] then cstr (value.rdropWhile isspace) else [])

/-- One iteration of the line loop of `db_env_read_config` after the line is read:
comments and empty commands are skipped, other lines are parsed. -/
def process_line (w : World) (env : DbEnvInternal) (line : List Char) : Int × DbEnvInternal :=
  let cv := split_line line
  if cv.1.length = 0 ∨ cv.1.head? = some (Char.ofNat 35) then (0, env)
  else db_env_parse_config_line w env cv.1 cv.2

/-- The reading loops of `db_env_read_config`, one `getc` at a time: `line` is
`linebuffer[0 .. index)`, the last argument the bytes still to come.  Returns `r` at the
label `cleanup` and the Environment.  (`buffersize` is an `int`; lines of `2 ^ 30` bytes
and more are not modelled.) -/
def read_loop (w : World) (ferror : Option Int) (env : DbEnvInternal) (buffersize : Nat)
    (line : List Char) : List Char → Int × DbEnvInternal
  | [] =>
    match ferror with
    | some e => (e, env)
    | none => process_line w env line
  | ch :: rest =>
    if ch = Char.ofNat 10 then
      let r := process_line w env line
      if r.1 ≠ 0 then r else read_loop w ferror r.2 buffersize [] rest
    else if line.length + 1 ≥ buffersize then
      if w.realloc_ok (buffersize * 2) then
        read_loop w ferror env (buffersize * 2) (line ++ [ch]) rest
      else (ENOMEM, env)
    else read_loop w ferror env buffersize (line ++ [ch]) rest

/-- `db_env_read_config`. -/
def db_env_read_config (w : World) (env : DbEnvInternal) (_flags : Nat) : Int × DbEnvInternal :=
  match construct_full_name w (env.dir.getD []) (lit "DB_CONFIG") with
  | none => (ENOMEM, env)
  | some full_name =>
    match w.fopen full_name with
    | .error e => (if e = ENOENT then EXIT_SUCCESS else e, env)
    | .ok fp =>
      if !w.malloc_ok (2 ^ 10) then
        (if ENOMEM ≠ 0 then ENOMEM else fp.fclose, env)
      else
        let r := read_loop w fp.ferror env (2 ^ 10) [] fp.content
        (if r.1 ≠ 0 then r.1 else fp.fclose, r.2)

/-! ## Environment open and create -/

/-- The tail of `__toku_db_env_open` from the Logger block on; `died1` frees `dir`,
`died2` closes the Logger first. -/
def env_open_tail (K : Consts) (w : World) (env : DbEnvInternal) (flags : Nat) :
    Int × DbEnvInternal × List Call :=
  let init_log := flags &&& (K.DB_INIT_TXN ||| K.DB_INIT_LOG) ≠ 0
  let full_dir : Option CStr :=
    match env.lg_dir with
    | some lg => construct_full_name w (env.dir.getD []) lg
    | none => none
  let log_dir := full_dir.getD (env.dir.getD [])
  let lr := w.logger_open log_dir env.logger
  if init_log ∧ lr.1 ≠ 0 then
    (lr.1, { env with logger := lr.2, dir := none }, [Call.logger_open log_dir])
  else
    let env := if init_log then { env with logger := lr.2 } else env
    let c1 := if init_log then [Call.logger_open log_dir] else []
    let cr := w.cachetable_create env.cachetable env.cachetable_size env.logger
    let env := { env with cachetable := cr.2 }
    let c2 := c1 ++ [Call.cachetable_create env.cachetable_size env.logger]
    if cr.1 ≠ 0 then
      (cr.1, { env with logger := (w.logger_close env.logger).2, dir := none },
        c2 ++ [Call.logger_close env.logger])
    else (0, env, c2)

/-- `__toku_db_env_open(env, home, flags, mode)`: result, the Environment afterwards and the
collaborator calls made. -/
def __toku_db_env_open (K : Consts) (w : World) (env : DbEnvInternal) (home : Option CStr)
    (flags : Nat) (mode : Int) : Int × DbEnvInternal × List Call :=
  if db_env_opened env then (EINVAL, env, [])
  else match home with
    | none => (EINVAL, env, [])
    | some h =>
      if w.stat h ≠ 0 then (w.stat h, env, [])
      else if flags &&& K.DB_PRIVATE = 0 then (EINVAL, env, [])
      else
        let env := { env with dir := toku_strdup w h }
        if env.dir.isNone then (ENOMEM, env, [])
        else
          let rc := db_env_read_config w env flags
          if rc.1 ≠ 0 then (rc.1, { rc.2 with dir := none }, [])
          else
            env_open_tail K w { rc.2 with open_flags := flags, open_mode := mode } flags

/-- `db_env_create`: the new Environment, or the error.  The callback installed by default
has identity `1`. -/
def db_env_create (K : Consts) (w : World) (_flags : Nat) : Int × Option DbEnvInternal :=
  if !w.malloc_ok K.sizeof_DB_ENV then (ENOMEM, none)
  else if !w.malloc_ok K.sizeof_db_env_internal then (ENOMEM, none)
  else
    (0, some
      { ref_count := 1, open_flags := 0, open_mode := 0, errcall := 1,
        errpfx := toku_strdup w [], dir := none, tmp_dir := none, lg_dir := none,
        data_dir := none, cachetable_size := 0, cachetable := 0, logger := 0 })

/-! ## Database handles -/

/-- `__toku_db_open(db, txn, fname, dbname, dbtype, flags, mode)` on a Database of the
Environment `env`: result, the Database afterwards and the collaborator calls made.
`txn` is the Logger handle of the transaction, `none` for a null `txn`
(`NULL_TXN` is the null handle).  The local `openflags` is computed in the source and
never used; it is left out. -/
def __toku_db_open (K : Consts) (w : World) (env : DbEnvInternal) (db : DbInternal)
    (txn : Option Nat) (fname : CStr) (dbname : Option CStr) (_dbtype : Nat) (flags : Nat)
    (mode : Int) : Int × DbInternal × List Call :=
  if flags &&& K.DB_EXCL ≠ 0 ∧ flags &&& K.DB_CREATE = 0 then (EINVAL, db, [])
  else if db.full_fname.isSome then (-1, db, [])
  else
    let error_cleanup (r : Int) (db : DbInternal) (cs : List Call) :
        Int × DbInternal × List Call :=
      (r, { db with database_name := none, full_fname := none }, cs)
    let db := { db with full_fname := construct_full_name w (env.dir.getD []) fname }
    match db.full_fname with
    | none => error_cleanup ENOMEM db []
    | some full =>
      let db := { db with database_name := toku_strdup w (dbname.getD []) }
      if db.database_name.isNone then error_cleanup ENOMEM db []
      else
        let found := w.stat full = 0
        if found ∧ dbname.isNone ∧ flags &&& K.DB_CREATE ≠ 0 ∧ flags &&& K.DB_EXCL ≠ 0 then
          error_cleanup EEXIST db []
        else if ¬ found ∧ flags &&& K.DB_CREATE = 0 then error_cleanup ENOENT db []
        else
          let flags :=
            if found ∧ dbname.isNone ∧ flags &&& K.DB_CREATE ≠ 0 then
              flags &&& cnot32 K.DB_CREATE
            else flags
          let db := { db with open_flags := flags, open_mode := mode }
          let c := Call.brt_open db.brt full fname dbname (flags &&& K.DB_CREATE)
            (flags &&& K.DB_EXCL) env.cachetable (txn.getD 0)
          let r := w.brt_open db.brt full fname dbname (flags &&& K.DB_CREATE)
            (flags &&& K.DB_EXCL) env.cachetable (txn.getD 0)
          if r ≠ 0 then error_cleanup r db [c] else (0, db, [c])

/-- `__toku_db_close(db, flags)` on a Database of the Environment `env`: result, the
Database and the Environment afterwards (`none` once freed) and the calls made. -/
def __toku_db_close (w : World) (env : DbEnvInternal) (db : DbInternal) (_flags : Nat) :
    Int × Option DbInternal × Option DbEnvInternal × List Call :=
  let r := w.close_brt db.brt
  if r ≠ 0 then (r, some db, some env, [Call.close_brt db.brt])
  else
    let u := db_env_unref w env
    (r, none, u.1, [Call.close_brt db.brt] ++ u.2 ++ [Call.free_db])

/-- `db_create(&db, env, flags)`: result, the new Database, the Environment afterwards
(`none` when there is none, or once freed) and the calls made.  With a null `env` a private
Environment is created and opened in `"."`; the `assert(db_env_opened(env))` that follows
a successful open there is not modelled. -/
def db_create (K : Consts) (w : World) (env : Option DbEnvInternal) (_flags : Nat) :
    Int × Option DbInternal × Option DbEnvInternal × List Call :=
  let attach (env : DbEnvInternal) (cs : List Call) :
      Int × Option DbInternal × Option DbEnvInternal × List Call :=
    if !w.malloc_ok K.sizeof_DB then
      let u := db_env_unref w env
      (ENOMEM, none, u.1, cs ++ u.2)
    else if !w.malloc_ok K.sizeof_db_internal then
      let u := db_env_unref w env
      (ENOMEM, none, u.1, cs ++ u.2)
    else
      let br := w.brt_create 0
      if br.1 ≠ 0 then
        let u := db_env_unref w env
        (ENOMEM, none, u.1, cs ++ [Call.brt_create] ++ u.2)
      else
        (0, some
          { freed := 0, header := 0, database_number := 0, full_fname := none,
            database_name := none, open_flags := 0, open_mode := 0, brt := br.2 },
          some env, cs ++ [Call.brt_create])
  match env with
  | some e =>
    if !db_env_opened e then (EINVAL, none, some e, [])
    else attach (db_env_add_ref e) []
  | none =>
    match db_env_create K w 0 with
    | (_, some e) =>
      let o := __toku_db_env_open K w e (some (lit ".")) (K.DB_PRIVATE + K.DB_INIT_MPOOL) 0
      if o.1 ≠ 0 then
        let c := __toku_db_env_close w o.2.1 0
        (o.1, none, c.2.1, o.2.2 ++ c.2.2)
      else attach o.2.1 o.2.2
    | (r, none) => (r, none, none, [])

/-! ## Database remove and rename -/

/-- `__toku_db_remove(db, fname, dbname, flags)` on a Database of the Environment `env`:
result, the Database and the Environment afterwards (`none` once freed) and the calls
made.  `db->open` and `db->close` are `__toku_db_open` and `__toku_db_close`; `0777` is
`511`.  With the non-null buffer `ffull`, `construct_full_name_in_buf` returns `0` or
`ENAMETOOLONG`, so the `assert` holds. -/
def __toku_db_remove (K : Consts) (w : World) (env : DbEnvInternal) (db : DbInternal)
    (fname : CStr) (dbname : Option CStr) (flags : Nat) :
    Int × Option DbInternal × Option DbEnvInternal × List Call :=
  match dbname with
  | some name =>
    let o := __toku_db_open K w env db none fname (some name) K.DB_BTREE 0 511
    let r := if o.1 ≠ 0 then o.1 else w.brt_remove_subdb o.2.1.brt name flags
    let c1 := if o.1 ≠ 0 then [] else [Call.brt_remove_subdb o.2.1.brt name flags]
    let c := __toku_db_close w env o.2.1 0
    (if r ≠ 0 then r else c.1, c.2.1, c.2.2.1, o.2.2 ++ c1 ++ c.2.2.2)
  | none =>
    let b := construct_full_name_in_buf (env.dir.getD []) fname true PATH_MAX
    if b.1 ≠ 0 then (b.1, some db, some env, [])
    else
      let c := __toku_db_close w env db 0
      let r := if c.1 = 0 then w.unlink b.2 else 0
      let c2 := if c.1 = 0 then [Call.unlink b.2] else []
      (if r ≠ 0 then r else c.1, c.2.1, c.2.2.1, c.2.2.2 ++ c2)

/-- `__toku_db_rename(db, namea, nameb, namec, flags)` on a Database of the Environment
`env`: the result and the calls made; `none` when one of the three `assert`s fails.
`snprintf(afull, PATH_MAX, "%s%s", dir, namea)` returns the length of `dir` followed by
`namea` and stores at most `PATH_MAX - 1` characters of it. -/
def __toku_db_rename (w : World) (env : DbEnvInternal) (namea : CStr) (nameb : Option CStr)
    (namec : CStr) (_flags : Nat) : Option (Int × List Call) :=
  if nameb.isSome then none
  else
    let afull := ((env.dir.getD []) ++ namea).take (PATH_MAX - 1)
    if ¬ ((env.dir.getD []) ++ namea).length < PATH_MAX then none
    else
      let cfull := ((env.dir.getD []) ++ namec).take (PATH_MAX - 1)
      if ¬ ((env.dir.getD []) ++ namec).length < PATH_MAX then none
      else some (w.rename afull cfull, [Call.rename afull cfull])

/-! ## Transactions -/

/-- A `DB_TXN *`: null, or the address of a Transaction with its Logger handle `tokutxn`
and its `parent` pointer (`struct __toku_db_txn_internal`). -/
inductive DbTxnPtr where
  | null
  | ptr (tokutxn : Nat) (parent : DbTxnPtr)
  deriving DecidableEq, Repr

/-- `__toku_db_txn_commit(txn, flags)`: the result, the Transaction afterwards (`none` once
it is freed) and the calls made. -/
def __toku_db_txn_commit (w : World) (txn : DbTxnPtr) (_flags : Nat) :
    Int × Option DbTxnPtr × List Call :=
  match txn with
  | .null => (-1, some .null, [])
  | .ptr tokutxn parent =>
    let r := w.tokulogger_log_commit tokutxn
    if r ≠ 0 then (r, some (.ptr tokutxn parent), [Call.tokulogger_log_commit tokutxn])
    else (0, none, [Call.tokulogger_log_commit tokutxn, Call.free_txn])

/-- `__toku_txn_begin(env, stxn, &txn, flags)` with the static counter `next_txn`: the
result, what is stored in `*txn` (null when nothing is stored), the counter afterwards and
the calls made; `none` when `assert(result->i)` fails.  `TXNID` has 64 bits ("A sixty-four
bit txn id"). -/
def __toku_txn_begin (K : Consts) (w : World) (env : DbEnvInternal) (next_txn : Nat)
    (stxn : DbTxnPtr) (_flags : Nat) : Option (Int × DbTxnPtr × Nat × List Call) :=
  if !w.malloc_ok K.sizeof_DB_TXN then some (ENOMEM, .null, next_txn, [])
  else if !w.malloc_ok K.sizeof_db_txn_internal then none
  else
    let parent : Nat :=
      match stxn with
      | .null => 0
      | .ptr tokutxn _ => tokutxn
    let r := w.tokutxn_begin parent next_txn env.logger
    let c := [Call.tokutxn_begin parent next_txn env.logger]
    if r.1 ≠ 0 then some (r.1, .null, (next_txn + 1) % 2 ^ 64, c)
    else some (0, .ptr r.2 stxn, (next_txn + 1) % 2 ^ 64, c)

/-- A Transaction that was begun, with the identifier handed to the Logger for it and the
identifier handed to the Logger for its parent (`none` without parent). -/
structure TxnRec where
  txn : DbTxnPtr
  id : Nat
  parent_id : Option Nat
  deriving DecidableEq, Repr

/-- The static counter `next_txn`, the Transactions begun so far (oldest first) and the
collaborator calls made so far. -/
structure TxnSys where
  next_txn : Nat
  txns : List TxnRec
  calls : List Call
  deriving DecidableEq, Repr

/-- One call `env->txn_begin(env, parent, &txn, 0)`, the parent being the `i`-th
Transaction begun so far, or none: `none` when the process aborts.  A request that names
no Transaction is no call. -/
def stepTxn (K : Consts) (w : World) (env : DbEnvInternal) (s : TxnSys) :
    Option Nat → Option TxnSys
  | none =>
    match __toku_txn_begin K w env s.next_txn .null 0 with
    | none => none
    | some r =>
      some { next_txn := r.2.2.1,
             txns := if r.1 = 0 then s.txns ++ [⟨r.2.1, s.next_txn, none⟩] else s.txns,
             calls := s.calls ++ r.2.2.2 }
  | some i =>
    match s.txns.get? i with
    | none => some s
    | some p =>
      match __toku_txn_begin K w env s.next_txn p.txn 0 with
      | none => none
      | some r =>
        some { next_txn := r.2.2.1,
               txns := if r.1 = 0 then s.txns ++ [⟨r.2.1, s.next_txn, some p.id⟩] else s.txns,
               calls := s.calls ++ r.2.2.2 }

/-- A sequence of `txn_begin` calls; it ends where the process aborts. -/
def runTxn (K : Consts) (w : World) (env : DbEnvInternal) : TxnSys → List (Option Nat) → TxnSys
  | s, [] => s
  | s, q :: qs =>
    match stepTxn K w env s q with
    | none => s
    | some s1 => runTxn K w env s1 qs

/-- The identifiers handed to the Logger by the `tokutxn_begin` calls, in call order. -/
def beginIds : List Call → List Nat
  | [] => []
  | Call.tokutxn_begin _ id _ :: cs => id :: beginIds cs
  | _ :: cs => beginIds cs

/-- Invariant of the `txn_begin` calls: every identifier handed to the Logger is below the
counter, the identifiers were handed out in increasing order, and every Transaction begun
has an identifier that was handed to the Logger and is above its parent's. -/
def TxnInv (s : TxnSys) : Prop :=
  (∀ i ∈ beginIds s.calls, i < s.next_txn) ∧
    (beginIds s.calls).Pairwise (fun a b => a < b) ∧
    ∀ r ∈ s.txns, r.id ∈ beginIds s.calls ∧ ∀ p, r.parent_id = some p → p < r.id

/-! ## Path join as the spec words it -/

/-- The directory joined with a file name: a name that starts with `/` stands for itself;
otherwise the directory is followed by the name, with one `/` inserted when the directory
does not end with one. -/
def joinPath (dir fname : CStr) : CStr :=
  if fname.head? = some (Char.ofNat 47) then fname
  else if dir.getLast? = some (Char.ofNat 47) then dir ++ fname
  else dir ++ Char.ofNat 47 :: fname

/-- The name `construct_full_name_in_buf` joins from `dir` and `fname`: `dir`, then a `/`
unless `dir` ends with one or `fname` starts with one, then `fname`. -/
def joinInBuf (dir fname : CStr) : CStr :=
  dir ++ (if dir.getLast? ≠ some (Char.ofNat 47) ∧ fname.head? ≠ some (Char.ofNat 47)
    then [Char.ofNat 47] else []) ++ fname

/-- A command that `db_env_parse_config_line` does not know: a non-empty word without
white space or NUL that does not start a comment and is none of the three directives. -/
def isUnknownCommand (cmd : CStr) : Bool :=
  cmd ≠ [] && cmd.all (fun c => !isspace c && c.toNat != 0) &&
    cmd.head? ≠ some (Char.ofNat 35) && cmd ≠ lit "set_data_dir" &&
    cmd ≠ lit "set_tmp_dir" && cmd ≠ lit "set_lg_dir"

/-! ## Data operations, cursors and Tree configuration -/

/-- The Logger handle `txn ? txn->i->tokutxn : 0` of a `DB_TXN *`. -/
def txnHandle : DbTxnPtr → Nat
  | .null => 0
  | .ptr tokutxn _ => tokutxn

/-- `__toku_db_put(db, txn, key, data, flags)`: the result and the calls made.  The `db`
argument of `brt_insert` is the handle itself and is not recorded. -/
def __toku_db_put (w : World) (db : DbInternal) (txn : DbTxnPtr) (key data : List Nat)
    (_flags : Nat) : Int × List Call :=
  (w.brt_insert db.brt key data (txnHandle txn),
    [Call.brt_insert db.brt key data (txnHandle txn)])

/-- `__toku_db_get(db, txn, key, data, flags)`: the result, the value stored in `data` and
the calls made; `none` when `assert(flags == 0)` fails. -/
def __toku_db_get (w : World) (db : DbInternal) (_txn : DbTxnPtr) (key : List Nat)
    (flags : Nat) : Option (Int × List Nat × List Call) :=
  if flags ≠ 0 then none
  else some ((w.brt_lookup db.brt key).1, (w.brt_lookup db.brt key).2,
    [Call.brt_lookup db.brt key])

/-- `__toku_db_del(db, txn, key, flags)`: the result and the calls made. -/
def __toku_db_del (w : World) (db : DbInternal) (_txn : DbTxnPtr) (key : List Nat)
    (_flags : Nat) : Int × List Call :=
  (w.brt_delete db.brt key, [Call.brt_delete db.brt key])

/-- The record `struct __toku_dbc_internal`: the Tree cursor `c` and the `txn` pointer (the
`db` pointer is not recorded). -/
structure DbcInternal where
  c : Nat
  txn : DbTxnPtr
  deriving DecidableEq, Repr

/-- `__toku_db_cursor(db, txn, &c, flags)`: the result, the cursor stored in `*c` and the
calls made; `none` when `assert(result->i)` or `assert(r == 0)` fails. -/
def __toku_db_cursor (K : Consts) (w : World) (db : DbInternal) (txn : DbTxnPtr)
    (_flags : Nat) : Option (Int × Option DbcInternal × List Call) :=
  if !w.malloc_ok K.sizeof_DBC then some (ENOMEM, none, [])
  else if !w.malloc_ok K.sizeof_dbc_internal then none
  else if (w.brt_cursor db.brt).1 ≠ 0 then none
  else some (0, some { c := (w.brt_cursor db.brt).2, txn := txn }, [Call.brt_cursor db.brt])

/-- `__toku_c_get(c, key, data, flag)`: the result, what is stored in `key` and `data`, and
the calls made. -/
def __toku_c_get (w : World) (c : DbcInternal) (key data : List Nat) (flag : Nat) :
    Int × (List Nat × List Nat) × List Call :=
  ((w.brt_cursor_get c.c key data flag (txnHandle c.txn)).1,
    (w.brt_cursor_get c.c key data flag (txnHandle c.txn)).2,
    [Call.brt_cursor_get c.c key data flag (txnHandle c.txn)])

/-- `__toku_c_close(c)`: the result and the calls made; the cursor is freed. -/
def __toku_c_close (w : World) (c : DbcInternal) : Int × List Call :=
  (w.brt_cursor_close c.c, [Call.brt_cursor_close c.c, Call.free_dbc])

/-- `__toku_c_del(c, flags)`: the result and the calls made. -/
def __toku_c_del (w : World) (c : DbcInternal) (flags : Nat) : Int × List Call :=
  (w.brt_cursor_delete c.c flags, [Call.brt_cursor_delete c.c flags])

/-- `__toku_db_set_bt_compare(db, bt_compare)`. -/
def __toku_db_set_bt_compare (w : World) (db : DbInternal) (bt_compare : Nat) :
    Int × List Call :=
  (w.brt_set_bt_compare db.brt bt_compare, [Call.brt_set_bt_compare db.brt bt_compare])

/-- `__toku_db_set_dup_compare(db, dup_compare)`. -/
def __toku_db_set_dup_compare (w : World) (db : DbInternal) (dup_compare : Nat) :
    Int × List Call :=
  (w.brt_set_dup_compare db.brt dup_compare, [Call.brt_set_dup_compare db.brt dup_compare])

/-- `__toku_db_set_flags(db, flags)`: `tflags` is a `u_int32_t`. -/
def __toku_db_set_flags (K : Consts) (w : World) (db : DbInternal) (flags : Nat) :
    Int × List Call :=
  let tflags := if flags &&& K.DB_DUP ≠ 0 then (0 + K.TOKU_DB_DUP) % 2 ^ 32 else 0
  let tflags := if flags &&& K.DB_DUPSORT ≠ 0 then (tflags + K.TOKU_DB_DUPSORT) % 2 ^ 32
    else tflags
  (w.brt_set_flags db.brt tflags, [Call.brt_set_flags db.brt tflags])

/-- `__toku_db_set_pagesize(db, pagesize)`. -/
def __toku_db_set_pagesize (w : World) (db : DbInternal) (pagesize : Nat) : Int × List Call :=
  (w.brt_set_nodesize db.brt pagesize, [Call.brt_set_nodesize db.brt pagesize])

/-! ## One shared Environment and its Databases -/

/-- The shared Environment object (`none` once it is freed), the Database handles created
on it and not yet freed, and the collaborator calls made so far. -/
structure Sys where
  env : Option DbEnvInternal
  dbs : List DbInternal
  calls : List Call

/-- Calls a client makes on the shared Environment and its Databases. -/
inductive Action where
  /-- `db_create(&db, env, flags)`. -/
  | db_create (flags : Nat)
  /-- `db->close(db, flags)` on the `i`-th Database handle. -/
  | db_close (i : Nat) (flags : Nat)
  /-- The creator of the Environment calls `env->close(env, flags)`. -/
  | env_close (flags : Nat)
  deriving DecidableEq, Repr

/-- The calls made through Database handles: `db_create` and Database close. -/
def Action.isDbCall : Action → Bool
  | .env_close _ => false
  | _ => true

/-- One client call.  `none`: the call dereferences the freed Environment.  A `db_close`
that names no handle is no call and leaves the system as it is. -/
def step (K : Consts) (w : World) (s : Sys) : Action → Option Sys
  | .db_create flags =>
    match s.env with
    | none => none
    | some e =>
      let r := db_create K w (some e) flags
      some { env := r.2.2.1, dbs := s.dbs ++ r.2.1.toList, calls := s.calls ++ r.2.2.2 }
  | .db_close i flags =>
    match s.dbs.get? i with
    | none => some s
    | some db =>
      match s.env with
      | none => none
      | some e =>
        let r := __toku_db_close w e db flags
        some { env := r.2.2.1,
               dbs := if r.2.1.isNone then s.dbs.eraseIdx i else s.dbs,
               calls := s.calls ++ r.2.2.2 }
  | .env_close flags =>
    match s.env with
    | none => none
    | some e =>
      let r := __toku_db_env_close w e flags
      some { env := r.2.1, dbs := s.dbs, calls := s.calls ++ r.2.2 }

/-- A sequence of client calls. -/
def run (K : Consts) (w : World) : Sys → List Action → Option Sys
  | s, [] => some s
  | s, a :: as =>
    match step K w s a with
    | none => none
    | some s1 => run K w s1 as

/-- A call that belongs to the Environment's close. -/
def isEnvClose : Call → Bool
  | .free_env => true
  | .cachetable_close _ => true
  | .logger_close _ => true
  | _ => false

/-- The Environment `e` with reference count `n`. -/
def withRef (e : DbEnvInternal) (n : Int) : DbEnvInternal := { e with ref_count := n }

/-- Invariant of a shared Environment held by its creator: it is alive, its reference count
is one more than the number of Databases attached, and no call of its close was made. -/
def SharedInv (e : DbEnvInternal) (s : Sys) : Prop :=
  s.env = some (withRef e (1 + s.dbs.length)) ∧ ∀ c ∈ s.calls, isEnvClose c = false

/-! ## Shape of `DB_CONFIG` lines -/

/-- The file content whose lines, separated by `\n`, are the given ones. -/
def joinLines : List (List Char) → List Char
  | [] => []
  | [l] => l
  | l :: ls => l ++ Char.ofNat 10 :: joinLines ls

/-- The lines of `db_env_read_config` one after the other, up to the first one that fails
to parse. -/
def process_lines (w : World) (env : DbEnvInternal) : List (List Char) → Int × DbEnvInternal
  | [] => (0, env)
  | l :: ls =>
    let r := process_line w env l
    if r.1 ≠ 0 then r else process_lines w r.2 ls

/-- A blank line: white space only. -/
def isBlank (l : List Char) : Bool := l.all isspace

/-- A comment line: the first character that is not white space is `#`. -/
def isComment (l : List Char) : Bool := (l.dropWhile isspace).head? = some (Char.ofNat 35)

/-- A line with the command `cmd`: after leading white space comes `cmd`, followed by the
end of the line or by white space. -/
def isDirective (cmd : CStr) (l : List Char) : Bool :=
  ((l.dropWhile isspace).take cmd.length = cmd) &&
    (((l.dropWhile isspace).drop cmd.length).head?.all isspace)

/-- A value as a directive carries it: a C string (no NUL) that neither starts nor ends
with white space. -/
def isTrimmed (v : CStr) : Bool :=
  v.all (fun c => c.toNat != 0) && v.head?.all (fun c => !isspace c) &&
    v.getLast?.all (fun c => !isspace c)

/-! ## Concrete inputs -/

/-- A choice of distinct flag bits and of structure sizes. -/
def K0 : Consts :=
  { DB_CREATE := 1, DB_EXCL := 4096, DB_RDONLY := 16, DB_PRIVATE := 2097152,
    DB_INIT_LOG := 16384, DB_INIT_MPOOL := 32768, DB_INIT_TXN := 262144,
    sizeof_DB_ENV := 256, sizeof_db_env_internal := 96, sizeof_DB := 512,
    sizeof_db_internal := 64, DB_BTREE := 1, sizeof_DB_TXN := 32,
    sizeof_db_txn_internal := 16, DB_DUP := 2, DB_DUPSORT := 4, TOKU_DB_DUP := 1,
    TOKU_DB_DUPSORT := 2, sizeof_DBC := 48, sizeof_dbc_internal := 24 }

/-- A world in which every allocation succeeds, every path exists, the home directory
holds the given `DB_CONFIG` and every collaborator succeeds (Logger handle `7`, Cache
handle `5`, Tree handle `9`, cursor handle `11`, transaction handle `100 + id`). -/
def worldWith (config : String) : World :=
  { malloc_ok := fun _ => true, realloc_ok := fun _ => true, stat := fun _ => 0,
    fopen := fun _ => .ok { content := config.toList, ferror := none, fclose := 0 },
    logger_open := fun _ _ => (0, 7), logger_close := fun _ => (0, 0),
    cachetable_create := fun _ _ _ => (0, 5), cachetable_close := fun _ => (0, 0),
    brt_create := fun _ => (0, 9), brt_open := fun _ _ _ _ _ _ _ _ => 0,
    close_brt := fun _ => 0, brt_remove_subdb := fun _ _ _ => 0,
    tokutxn_begin := fun _ id _ => (0, 100 + id), tokulogger_log_commit := fun _ => 0,
    unlink := fun _ => 0, rename := fun _ _ => 0, brt_insert := fun _ _ _ _ => 0,
    brt_lookup := fun _ _ => (0, []), brt_delete := fun _ _ => 0, brt_cursor := fun _ => (0, 11),
    brt_cursor_get := fun _ k d _ _ => (0, k, d), brt_cursor_close := fun _ => 0,
    brt_cursor_delete := fun _ _ => 0, brt_set_bt_compare := fun _ _ => 0,
    brt_set_dup_compare := fun _ _ => 0, brt_set_flags := fun _ _ => 0,
    brt_set_nodesize := fun _ _ => 0 }

/-- The world `worldWith` for a `DB_CONFIG` of four lines: a comment, `set_data_dir /x`
with white space around, a blank line and a `set_lg_dir` line. -/
def wCfg : World := worldWith "# cfg\n  set_data_dir   /x  \n\nset_lg_dir logs"

/-- The world `worldWith` for a `DB_CONFIG` with `set_data_dir /x` before a line with the
unknown command `bogus`. -/
def wBad : World := worldWith "set_data_dir /x\nbogus 1"

/-- The world `worldWith` for an empty `DB_CONFIG`. -/
def w0 : World := worldWith ""

/-- An Environment as `db_env_create` returns it in `w0`. -/
def envNew : DbEnvInternal :=
  { ref_count := 1, open_flags := 0, open_mode := 0, errcall := 1, errpfx := some [],
    dir := none, tmp_dir := none, lg_dir := none, data_dir := none, cachetable_size := 0,
    cachetable := 0, logger := 0 }

/-- The Environment `envNew` after `set_data_dir("/old")`. -/
def envOld : DbEnvInternal := { envNew with data_dir := some (lit "/old") }

/-- The Environment `envNew` after `open` of the home `/home` with `DB_PRIVATE` in `w0`. -/
def envOpen : DbEnvInternal :=
  { envNew with open_flags := 2097152, dir := some (lit "/home"), cachetable := 5 }

/-- A Database as `db_create` returns it in `w0`. -/
def dbNew : DbInternal :=
  { freed := 0, header := 0, database_number := 0, full_fname := none, database_name := none,
    open_flags := 0, open_mode := 0, brt := 9 }

/-- The Database `dbNew` after a successful `open` of `t1` with `DB_CREATE` in the
Environment `envOpen` (in `w0` the file exists, so `DB_CREATE` is cleared). -/
def dbOpen : DbInternal :=
  { dbNew with full_fname := some (lit "/home/t1"), database_name := some [] }

/-- The world `w0` with a Tree whose close fails with `5`. -/
def wCloseFails : World := { w0 with close_brt := fun _ => 5 }

/-- The world `w0` with a Tree whose sub-database removal fails with `3` and whose close
fails with `5`. -/
def wRemoveFails : World :=
  { w0 with brt_remove_subdb := fun _ _ _ => 3, close_brt := fun _ => 5 }

/-- The world `w0` with a Tree whose create fails with `5`. -/
def wCreateFails : World := { w0 with brt_create := fun _ => (5, 0) }

/-- The world `w0`, except that `brt_cursor` fails with the error `5`. -/
def wCursorFails : World := { w0 with brt_cursor := fun _ => (5, 0) }

/-- The world `w0`, except that the Cache creation fails with `7` and the Logger close
fails with `9`. -/
def wCacheFails : World :=
  { w0 with cachetable_create := fun _ _ _ => (7, 0), logger_close := fun _ => (9, 0) }

end Ydb

/-! # Theorems -/

namespace MyCompare

theorem cnot32_testBit (x i : Nat) :
    (cnot32 x).testBit i = (decide (i < 32) && !(x % 2 ^ 32).testBit i) := by
  unfold cnot32
  have h : x % 2 ^ 32 < 2 ^ 32 := Nat.mod_lt _ (by norm_num)
  rw [Nat.sub_sub, Nat.add_comm 1, Nat.testBit_two_pow_sub_succ h]

theorem one_shiftLeft_mod (n : Nat) (h : n ≤ 9) : (1 <<< n) % 2 ^ 32 = 2 ^ n := by
  rw [Nat.one_shiftLeft]
  exact Nat.mod_eq_of_lt (Nat.pow_lt_pow_right (by norm_num) (by omega))

/-- Bit `i` of what `get_rec_bits` reads back after `set_rec_bits`. -/
theorem get_set_rec_bits_testBit (b0 b1 bits ofs len i : Nat) (hl9 : len ≤ 9) (ho : ofs ≤ 7) :
    (get_rec_bits (set_rec_bits bits (b0, b1) ofs len) ofs len).testBit i =
      ((bits &&& (2 ^ len - 1)) % 2 ^ 8).testBit i := by
  unfold get_rec_bits set_rec_bits
  by_cases hc : ofs + len > 8
  · have e : (len + 2 ^ 32 - 8 + ofs) % 2 ^ 32 = len + ofs - 8 := by omega
    simp only [hc, if_true, e, one_shiftLeft_mod len hl9,
      one_shiftLeft_mod (len + ofs - 8) (by omega)]
    simp only [Nat.testBit_mod_two_pow, Nat.testBit_and, Nat.testBit_or, Nat.testBit_shiftLeft,
      Nat.testBit_shiftRight, Nat.testBit_two_pow_sub_one, cnot32_testBit]
    by_cases h1 : i < 8 <;> by_cases h2 : i < len <;> by_cases h3 : ofs + i < 8 <;>
      simp [h1, h2, h3]
    have a1 : ofs + i < 16 := by omega
    have a2 : 8 ≤ ofs + i := by omega
    have a3 : ofs + i - 8 < 8 := by omega
    have a4 : ofs + i - 8 < 32 := by omega
    have a5 : ofs + i - 8 < len + ofs - 8 := by omega
    have a6 : 8 - ofs + (ofs + i - 8) = i := by omega
    simp [a1, a2, a3, a4, a5, a6]
  · have hc2 : ¬ (8 < ofs + len) := hc
    simp only [hc2, if_false, one_shiftLeft_mod len hl9]
    simp only [Nat.testBit_mod_two_pow, Nat.testBit_and, Nat.testBit_or, Nat.testBit_shiftLeft,
      Nat.testBit_shiftRight, Nat.testBit_two_pow_sub_one, cnot32_testBit]
    by_cases h1 : i < 8 <;> by_cases h2 : i < len <;> by_cases h3 : ofs + i < 8 <;>
      simp [h1, h2, h3]
    omega

/-- C1, as stated, fails: with `len = 9`, `ofs = 0` and `bits = 256` on a zeroed buffer,
`get_rec_bits` after `set_rec_bits` returns `0` (its result is a `uchar`), while
`bits & ((1 << len) - 1)` is `256`. -/
theorem rec_bits_len9_not_round_trip :
    get_rec_bits (set_rec_bits 256 (0, 0) 0 9) 0 9 = 0 ∧ 256 &&& ((1 <<< 9) - 1) = 256 := by
  decide

/-- C1 (amended): for every buffer, every `len` up to `9` (so every `len` in `1..9`), every `ofs` in `0..7` and every
`bits`, `get_rec_bits` after `set_rec_bits` returns `bits & ((1 << len) - 1)` truncated to
the 8 bits of its `uchar` result; for `len` in `1..8` that is `bits & ((1 << len) - 1)`
itself. -/
theorem rec_bits_round_trip (b0 b1 bits ofs len : Nat) (hl9 : len ≤ 9) (ho : ofs ≤ 7) :
    get_rec_bits (set_rec_bits bits (b0, b1) ofs len) ofs len
        = (bits &&& ((1 <<< len) - 1)) % 2 ^ 8 ∧
      (len ≤ 8 →
        get_rec_bits (set_rec_bits bits (b0, b1) ofs len) ofs len
          = bits &&& ((1 <<< len) - 1)) := by
  have key : get_rec_bits (set_rec_bits bits (b0, b1) ofs len) ofs len
      = (bits &&& (2 ^ len - 1)) % 2 ^ 8 :=
    Nat.eq_of_testBit_eq (fun i => get_set_rec_bits_testBit b0 b1 bits ofs len i hl9 ho)
  rw [Nat.one_shiftLeft]
  refine ⟨key, fun h8 => ?_⟩
  rw [key]
  apply Nat.mod_eq_of_lt
  have h1 : bits &&& (2 ^ len - 1) ≤ 2 ^ len - 1 := Nat.and_le_right
  have h2 : 2 ^ len ≤ 2 ^ 8 := Nat.pow_le_pow_right (by norm_num) h8
  have h3 : 0 < 2 ^ len := Nat.two_pow_pos len
  omega

theorem rec_bits_round_trip_witness :
    get_rec_bits (set_rec_bits 43981 (90, 165) 3 7) 3 7 = (43981 &&& ((1 <<< 7) - 1)) % 2 ^ 8 ∧
      (7 ≤ 8 →
        get_rec_bits (set_rec_bits 43981 (90, 165) 3 7) 3 7 = 43981 &&& ((1 <<< 7) - 1)) :=
  rec_bits_round_trip 90 165 43981 3 7 (by decide) (by decide)

theorem store_get_key_length (m : Mem) (key L : Nat) (h : L < 65536) :
    get_key_length (store_key_length_inc m key L).1 key
      = (L, (store_key_length_inc m key L).2) := by
  unfold store_key_length_inc get_key_length
  by_cases hL : L < 255
  · have e1 : L % 256 = L := by omega
    have e2 : ¬ L = 255 := by omega
    simp [hL, Mem.write, e1, e2]
  · have e1 : ¬ key = key + 1 + 1 := by omega
    have e2 : (L % 4294967296 % 256 + L % 4294967296 / 256 % 256 * 256) % 65536 = L := by
      omega
    simp [hL, Mem.write, mi_int2store, mi_uint2korr, Nat.shiftLeft_eq,
      Nat.shiftRight_eq_div_pow, e1, e2]

/-- C2: for every length `L` in `0..HA_MAX_KEY_LENGTH`, `get_key_length` at the start of
what `store_key_length_inc` wrote yields `L` and leaves the pointer where the store left it,
which is `1` byte further when `L < 255`, `3` bytes otherwise, and
`size_to_store_key_length(L)` bytes further. -/
theorem key_length_round_trip (m : Mem) (key L : Nat) (hL : L ≤ HA_MAX_KEY_LENGTH) :
    get_key_length (store_key_length_inc m key L).1 key
        = (L, (store_key_length_inc m key L).2) ∧
      (store_key_length_inc m key L).2 = key + (if L < 255 then 1 else 3) ∧
      (store_key_length_inc m key L).2 = key + size_to_store_key_length L := by
  have h : L < 65536 := by unfold HA_MAX_KEY_LENGTH at hL; omega
  refine ⟨store_get_key_length m key L h, ?_, ?_⟩ <;>
    by_cases h255 : L < 255 <;> simp [store_key_length_inc, size_to_store_key_length, h255]

theorem key_length_round_trip_witness :
    get_key_length (store_key_length_inc (fun _ => 7) 10 1000).1 10
        = (1000, (store_key_length_inc (fun _ => 7) 10 1000).2) ∧
      (store_key_length_inc (fun _ => 7) 10 1000).2 = 10 + (if 1000 < 255 then 1 else 3) ∧
      (store_key_length_inc (fun _ => 7) 10 1000).2 = 10 + size_to_store_key_length 1000 :=
  key_length_round_trip (fun _ => 7) 10 1000 (by decide)

/-! ## Character comparison -/

/-- C12: for every collation, `ha_compare_char_varying` without the prefix flag returns the
collation's `strnncollsp` (pad-space comparison) of `a` and `b`, and with it the
collation's `strnncoll` in prefix mode; on the pad-space collation of any character
weights, `"ab"` against `"ab "` gives `0` without the flag and a negative result with it. -/
theorem ha_compare_char_varying_dispatch (cs : Collation) (a b : List Char) :
    ha_compare_char_varying cs a b false = cs.strnncollsp a b ∧
      ha_compare_char_varying cs a b true = cs.strnncoll a b true ∧
      ∀ wt : Char → Nat,
        ha_compare_char_varying (padSpaceCollation wt) [Char.ofNat 97, Char.ofNat 98]
            [Char.ofNat 97, Char.ofNat 98, Char.ofNat 32] false = 0 ∧
        ha_compare_char_varying (padSpaceCollation wt) [Char.ofNat 97, Char.ofNat 98]
            [Char.ofNat 97, Char.ofNat 98, Char.ofNat 32] true < 0 := by
  refine ⟨rfl, rfl, fun wt => ⟨?_, ?_⟩⟩
  · simp [ha_compare_char_varying, padSpaceCollation, padTo, cmpWeights]
  · simp [ha_compare_char_varying, padSpaceCollation, cmpWeights]

theorem padTo_length (n : Nat) (s : List Char) (h : s.length ≤ n) : (padTo n s).length = n := by
  simp [padTo]; omega

theorem padTo_take_padTo (n : Nat) (s : List Char) (h : s.length ≤ n) :
    padTo n ((padTo n s).take n) = padTo n (s.take n) := by
  have h1 : (padTo n s).take n = padTo n s := List.take_of_length_le (by rw [padTo_length n s h])
  have h2 : s.take n = s := List.take_of_length_le h
  rw [h1, h2]
  have h3 : n - (padTo n s).length = 0 := by rw [padTo_length n s h]; omega
  conv_lhs => rw [padTo, h3]
  simp

/-- C13: on the pad-space collation of any character weights and without the prefix flag,
for every `nchars` and all `a`, `b` of at most `nchars` characters,
`ha_compare_char_fixed(a, b, nchars)` returns what it returns on `a` and `b` each padded
with spaces to `nchars` characters. -/
theorem ha_compare_char_fixed_pads (wt : Char → Nat) (flag nchars : Nat) (a b : List Char)
    (ha : a.length ≤ nchars) (hb : b.length ≤ nchars) :
    ha_compare_char_fixed flag (padSpaceCollation wt) a b nchars false
      = ha_compare_char_fixed flag (padSpaceCollation wt) (padTo nchars a) (padTo nchars b)
          nchars false := by
  simp only [ha_compare_char_fixed, padSpaceCollation, if_true, padTo_take_padTo nchars a ha,
    padTo_take_padTo nchars b hb]

theorem ha_compare_char_fixed_pads_witness :
    ha_compare_char_fixed 1 (padSpaceCollation Char.toNat) [Char.ofNat 97, Char.ofNat 98]
        [Char.ofNat 97, Char.ofNat 98] 4 false
      = ha_compare_char_fixed 1 (padSpaceCollation Char.toNat)
          [Char.ofNat 97, Char.ofNat 98, Char.ofNat 32, Char.ofNat 32]
          [Char.ofNat 97, Char.ofNat 98, Char.ofNat 32, Char.ofNat 32] 4 false :=
  ha_compare_char_fixed_pads Char.toNat 1 4 [Char.ofNat 97, Char.ofNat 98]
    [Char.ofNat 97, Char.ofNat 98] (by decide) (by decide)

/-- C27: for every collation, `a`, `b` and prefix flag, `ha_compare_word_or_prefix` returns
what `ha_compare_char_varying` returns; `ha_compare_word` is `ha_compare_char_varying`
without the flag and `ha_compare_word_prefix` is `ha_compare_char_varying` with it. -/
theorem word_compare_is_char_varying (cs : Collation) (a b : List Char) :
    (∀ flag : Bool,
        ha_compare_word_or_prefix cs a b flag = ha_compare_char_varying cs a b flag) ∧
      ha_compare_word cs a b = ha_compare_char_varying cs a b false ∧
      ( ha_compare_word_prefix cs a b) = ha_compare_char_varying cs a b true := by
  refine ⟨fun flag => ?_, rfl, rfl⟩
  cases flag <;> rfl

/-! ## Bytes written by `store_key_length_inc` -/

/-- C24: for `L < 255`, `store_key_length_inc` writes the byte `L` at `key`, nothing else,
and advances `key` by `1`; for `255 ≤ L ≤ 65535` it writes `0xFF`, `L mod 256` and
`L div 256` at `key`, `key + 1`, `key + 2`, nothing else, and advances `key` by `3`. -/
theorem store_key_length_bytes (m : Mem) (key L : Nat) (hL : L ≤ 65535) :
    (L < 255 →
        (store_key_length_inc m key L).1 key = L ∧
        (∀ a, a ≠ key → (store_key_length_inc m key L).1 a = m a) ∧
        (store_key_length_inc m key L).2 = key + 1) ∧
      (255 ≤ L →
        (store_key_length_inc m key L).1 key = 255 ∧
        (store_key_length_inc m key L).1 (key + 1) = L % 256 ∧
        (store_key_length_inc m key L).1 (key + 2) = L / 256 ∧
        (∀ a, a ≠ key → a ≠ key + 1 → a ≠ key + 2 → (store_key_length_inc m key L).1 a = m a) ∧
        (store_key_length_inc m key L).2 = key + 3) := by
  constructor
  · intro h
    have e1 : L % 256 = L := by omega
    refine ⟨?_, ?_, ?_⟩
    · simp [store_key_length_inc, h, Mem.write, e1]
    · intro a ha
      simp [store_key_length_inc, h, Mem.write, ha]
    · simp [store_key_length_inc, h]
  · intro h
    have h1 : ¬ L < 255 := by omega
    have e1 : L % 4294967296 = L := by omega
    have e2 : L / 256 % 256 = L / 256 := by omega
    have k1 : ¬ key = key + 1 := by omega
    have k2 : ¬ key = key + 1 + 1 := by omega
    refine ⟨?_, ?_, ?_, ?_, ?_⟩
    · simp [store_key_length_inc, h1, mi_int2store, Mem.write, k1, k2]
    · simp [store_key_length_inc, h1, mi_int2store, Mem.write, e1]
    · simp [store_key_length_inc, h1, mi_int2store, Mem.write, e1, e2,
        Nat.shiftRight_eq_div_pow]
    · intro a ha hb hc
      have hc2 : ¬ a = key + 1 + 1 := hc
      simp [store_key_length_inc, h1, mi_int2store, Mem.write, ha, hb, hc2]
    · simp [store_key_length_inc, h1]

theorem store_key_length_bytes_witness :
    (300 < 255 →
        (store_key_length_inc (fun _ => 7) 10 300).1 10 = 300 ∧
        (∀ a, a ≠ 10 → (store_key_length_inc (fun _ => 7) 10 300).1 a = (fun _ => 7) a) ∧
        (store_key_length_inc (fun _ => 7) 10 300).2 = 10 + 1) ∧
      (255 ≤ 300 →
        (store_key_length_inc (fun _ => 7) 10 300).1 10 = 255 ∧
        (store_key_length_inc (fun _ => 7) 10 300).1 (10 + 1) = 300 % 256 ∧
        (store_key_length_inc (fun _ => 7) 10 300).1 (10 + 2) = 300 / 256 ∧
        (∀ a, a ≠ 10 → a ≠ 10 + 1 → a ≠ 10 + 2 →
          (store_key_length_inc (fun _ => 7) 10 300).1 a = (fun _ => 7) a) ∧
        (store_key_length_inc (fun _ => 7) 10 300).2 = 10 + 3) :=
  store_key_length_bytes (fun _ => 7) 10 300 (by decide)

/-! ## What `set_rec_bits` leaves alone -/

theorem testBit_of_lt_two_pow (bits len k : Nat) (hb : bits < 2 ^ len) (hk : len ≤ k) :
    bits.testBit k = false :=
  Nat.testBit_lt_two_pow (Nat.lt_of_lt_of_le hb (Nat.pow_le_pow_right (by norm_num) hk))

/-- C28: for every 2-byte buffer, `len` up to `8`, `ofs` up to `7` and `bits < 2 ^ len`,
`set_rec_bits` leaves every bit of the 16-bit window outside the positions
`[ofs, ofs + len)` as it was, and when `ofs + len ≤ 8` it leaves the second byte as it
was. -/
theorem set_rec_bits_frame (b0 b1 bits ofs len j : Nat) (hl8 : len ≤ 8) (ho : ofs ≤ 7)
    (hb : bits < 2 ^ len) (hj : j < 16) (hout : ¬ (ofs ≤ j ∧ j < ofs + len)) :
    windowBit (set_rec_bits bits (b0, b1) ofs len) j = windowBit (b0, b1) j ∧
      (ofs + len ≤ 8 → (set_rec_bits bits (b0, b1) ofs len).2 = b1) := by
  constructor
  · unfold windowBit set_rec_bits
    by_cases h8 : j < 8
    · simp only [h8, if_true, one_shiftLeft_mod len (by omega)]
      simp only [Nat.testBit_mod_two_pow, Nat.testBit_and, Nat.testBit_or,
        Nat.testBit_shiftLeft, Nat.testBit_two_pow_sub_one, cnot32_testBit]
      by_cases h1 : ofs ≤ j
      · have h2 : ¬ j - ofs < len := by omega
        have h3 : bits.testBit (j - ofs) = false := testBit_of_lt_two_pow bits len _ hb (by omega)
        have h4 : j < 32 := by omega
        simp [h8, h1, h2, h3, h4]
      · have h4 : j < 32 := by omega
        simp [h8, h1, h4]
    · simp only [h8, if_false]
      by_cases hc : ofs + len > 8
      · have e : (len + 2 ^ 32 - 8 + ofs) % 2 ^ 32 = len + ofs - 8 := by omega
        simp only [hc, if_true, e, one_shiftLeft_mod (len + ofs - 8) (by omega)]
        simp only [Nat.testBit_mod_two_pow, Nat.testBit_and, Nat.testBit_or,
          Nat.testBit_shiftRight, Nat.testBit_two_pow_sub_one, cnot32_testBit]
        have h1 : j - 8 < 8 := by omega
        have h2 : ¬ j - 8 < len + ofs - 8 := by omega
        have h3 : bits.testBit (8 - ofs + (j - 8)) = false :=
          testBit_of_lt_two_pow bits len _ hb (by omega)
        have h4 : j - 8 < 32 := by omega
        simp [h1, h2, h3, h4]
      · have hc2 : ¬ (8 < ofs + len) := hc
        simp only [hc2, if_false]
  · intro h
    have hc2 : ¬ (8 < ofs + len) := by omega
    simp only [set_rec_bits, gt_iff_lt, hc2, if_false]

theorem set_rec_bits_frame_witness :
    windowBit (set_rec_bits 5 (90, 165) 6 3) 12 = windowBit (90, 165) 12 ∧
      (6 + 3 ≤ 8 → (set_rec_bits 5 (90, 165) 6 3).2 = 165) :=
  set_rec_bits_frame 90 165 5 6 3 12 (by decide) (by decide) (by decide) (by decide)
    (by decide)

end MyCompare

namespace Xids

/-! ## The chain of nested transaction identifiers -/

theorem pushAll_spec (capacity : Nat) (hcap : capacity ≤ 256) :
    ∀ (ids : List Nat) (c : XIDS_S), c.num_stored_xids = c.ids.length →
      c.ids.length ≤ capacity - 1 →
      (pushAll capacity c ids).ids = (c.ids ++ ids).take (capacity - 1) ∧
        (pushAll capacity c ids).num_stored_xids = (pushAll capacity c ids).ids.length := by
  intro ids
  induction ids with
  | nil =>
    intro c hn hle
    exact ⟨by simp [pushAll, List.take_of_length_le hle], hn⟩
  | cons id rest ih =>
    intro c hn hle
    by_cases hfull : c.num_stored_xids = capacity - 1
    · have hp : push capacity c id = .error .CapacityExceeded := by simp [push, hfull]
      simp only [pushAll, hp]
      obtain ⟨h1, h2⟩ := ih c hn hle
      refine ⟨?_, h2⟩
      rw [h1]
      have hl : c.ids.length = capacity - 1 := by omega
      rw [List.take_append_of_le_length (by omega), List.take_append_of_le_length (by omega)]
    · have hp : push capacity c id
          = .ok { num_stored_xids := (c.num_stored_xids + 1) % 2 ^ 8, ids := c.ids ++ [id] } := by
        simp [push, hfull]
      simp only [pushAll, hp]
      have hlt : c.ids.length + 1 ≤ capacity - 1 := by omega
      have hmod : (c.num_stored_xids + 1) % 2 ^ 8 = c.ids.length + 1 := by
        rw [hn]
        exact Nat.mod_eq_of_lt (by omega)
      obtain ⟨h1, h2⟩ := ih (XIDS_S.mk ((c.num_stored_xids + 1) % 2 ^ 8) (c.ids ++ [id]))
        (by show (c.num_stored_xids + 1) % 2 ^ 8 = (c.ids ++ [id]).length
            rw [hmod]; simp)
        (by simpa using hlt)
      refine ⟨?_, h2⟩
      rw [h1]
      simp

/-- C25: for every chain built from `root()` by pushes (capacity at most `256`, so that the
length fits its `u_int8_t` field), the stored identifiers are the pushed ones in push
order, outermost first, as many as fit; the stored length is their number and is at most
`capacity − 1`; and a push onto a chain of length `capacity − 1` fails with
`CapacityExceeded`, the chain being as before. -/
theorem xid_chain_order_and_capacity (capacity : Nat) (ids : List Nat) (hcap : capacity ≤ 256) :
    (pushAll capacity root ids).ids = ids.take (capacity - 1) ∧
      (pushAll capacity root ids).num_stored_xids = (pushAll capacity root ids).ids.length ∧
      (pushAll capacity root ids).num_stored_xids ≤ capacity - 1 ∧
      ∀ (c : XIDS_S) (id : Nat), c.num_stored_xids = capacity - 1 →
        push capacity c id = .error .CapacityExceeded ∧ pushAll capacity c [id] = c := by
  obtain ⟨h0, h2⟩ := pushAll_spec capacity hcap ids root rfl (Nat.zero_le _)
  have h1 : (pushAll capacity root ids).ids = ids.take (capacity - 1) := h0
  refine ⟨h1, h2, ?_, ?_⟩
  · rw [h2, h1, List.length_take]
    exact Nat.min_le_left _ _
  · intro c id hc
    have hp : push capacity c id = .error .CapacityExceeded := by simp [push, hc]
    exact ⟨hp, by simp [pushAll, hp]⟩

theorem xid_chain_order_and_capacity_witness :
    (pushAll 4 root [10, 20, 30, 40]).ids = [10, 20, 30, 40].take (4 - 1) ∧
      (pushAll 4 root [10, 20, 30, 40]).num_stored_xids
        = (pushAll 4 root [10, 20, 30, 40]).ids.length ∧
      (pushAll 4 root [10, 20, 30, 40]).num_stored_xids ≤ 4 - 1 ∧
      ∀ (c : XIDS_S) (id : Nat), c.num_stored_xids = 4 - 1 →
        push 4 c id = .error .CapacityExceeded ∧ pushAll 4 c [id] = c :=
  xid_chain_order_and_capacity 4 [10, 20, 30, 40] (by decide)

end Xids

namespace Ydb

theorem EINVAL_ne_zero : EINVAL ≠ 0 := by decide

/-- C4: on an already-open Environment, `open` returns `EINVAL` (a failure), makes no
collaborator call and leaves the Environment, every field of it, as it was. -/
theorem env_open_twice_fails (K : Consts) (w : World) (env : DbEnvInternal)
    (home : Option CStr) (flags : Nat) (mode : Int) (h : db_env_opened env = true) :
    __toku_db_env_open K w env home flags mode = (EINVAL, env, []) ∧ EINVAL ≠ 0 := by
  refine ⟨?_, EINVAL_ne_zero⟩
  unfold __toku_db_env_open
  simp [h]

theorem env_open_twice_fails_witness :
    __toku_db_env_open K0 w0 envOpen (some (lit "/other")) 2097152 7 = (EINVAL, envOpen, []) ∧
      EINVAL ≠ 0 :=
  env_open_twice_fails K0 w0 envOpen (some (lit "/other")) 2097152 7 (by decide)

/-- C5, as stated, fails: on the open Database `dbOpen`, `open` with `DB_EXCL` and without
`DB_CREATE` returns `EINVAL`, the result of the flag check, not the `-1` of
"It was already open". -/
theorem db_open_twice_excl_not_invalid_state :
    dbOpen.full_fname.isSome = true ∧
      (__toku_db_open K0 w0 envOpen dbOpen none (lit "t1") none 0 K0.DB_EXCL 0).1 = EINVAL ∧
      EINVAL ≠ -1 := by
  decide

/-- C5 (amended): on an already-open Database, `open` fails, does not call the Tree and
leaves the Database as it was; the result is `-1` ("already open") unless the flags
hold `DB_EXCL` without `DB_CREATE`, for which it is `EINVAL`. -/
theorem db_open_twice_fails (K : Consts) (w : World) (env : DbEnvInternal) (db : DbInternal)
    (txn : Option Nat) (fname : CStr) (dbname : Option CStr) (dbtype flags : Nat) (mode : Int)
    (h : db.full_fname.isSome = true) :
    (__toku_db_open K w env db txn fname dbname dbtype flags mode).1 ≠ 0 ∧
      (__toku_db_open K w env db txn fname dbname dbtype flags mode).2 = (db, []) ∧
      (__toku_db_open K w env db txn fname dbname dbtype flags mode).1 =
        (if flags &&& K.DB_EXCL ≠ 0 ∧ flags &&& K.DB_CREATE = 0 then EINVAL else -1) := by
  have e : __toku_db_open K w env db txn fname dbname dbtype flags mode =
      (if flags &&& K.DB_EXCL ≠ 0 ∧ flags &&& K.DB_CREATE = 0 then EINVAL else -1, db, []) := by
    unfold __toku_db_open
    by_cases hf : flags &&& K.DB_EXCL ≠ 0 ∧ flags &&& K.DB_CREATE = 0
    · rw [if_pos hf, if_pos hf]
    · rw [if_neg hf, if_pos h, if_neg hf]
  rw [e]
  refine ⟨?_, rfl, rfl⟩
  show (if flags &&& K.DB_EXCL ≠ 0 ∧ flags &&& K.DB_CREATE = 0 then EINVAL else -1) ≠ 0
  split
  · exact EINVAL_ne_zero
  · decide

theorem db_open_twice_fails_witness :
    (__toku_db_open K0 w0 envOpen dbOpen none (lit "t2") none 0 1 0).1 ≠ 0 ∧
      (__toku_db_open K0 w0 envOpen dbOpen none (lit "t2") none 0 1 0).2 = (dbOpen, []) ∧
      (__toku_db_open K0 w0 envOpen dbOpen none (lit "t2") none 0 1 0).1 =
        (if 1 &&& K0.DB_EXCL ≠ 0 ∧ 1 &&& K0.DB_CREATE = 0 then EINVAL else -1) :=
  db_open_twice_fails K0 w0 envOpen dbOpen none (lit "t2") none 0 1 0 (by decide)

/-- C6: on an open Environment, `set_data_dir`, `set_tmp_dir` and `set_lg_dir` return
`EINVAL` (non-zero) for every argument, null included, and leave the Environment, so its
data, temp and log directories, unchanged. -/
theorem set_dirs_fail_when_open (w : World) (env : DbEnvInternal) (dir : Option CStr)
    (h : db_env_opened env = true) :
    __toku_db_env_set_data_dir w env dir = (EINVAL, env) ∧
      __toku_db_env_set_tmp_dir w env dir = (EINVAL, env) ∧
      __toku_db_env_set_lg_dir w env dir = (EINVAL, env) ∧ EINVAL ≠ 0 := by
  refine ⟨?_, ?_, ?_, EINVAL_ne_zero⟩
  · unfold __toku_db_env_set_data_dir; simp [h]
  · unfold __toku_db_env_set_tmp_dir; simp [h]
  · unfold __toku_db_env_set_lg_dir; simp [h]

theorem set_dirs_fail_when_open_witness :
    __toku_db_env_set_data_dir w0 envOpen (some (lit "/d")) = (EINVAL, envOpen) ∧
      __toku_db_env_set_tmp_dir w0 envOpen (some (lit "/d")) = (EINVAL, envOpen) ∧
      __toku_db_env_set_lg_dir w0 envOpen (some (lit "/d")) = (EINVAL, envOpen) ∧ EINVAL ≠ 0 :=
  set_dirs_fail_when_open w0 envOpen (some (lit "/d")) (by decide)

/-- C7 fails on the code: `set_cachesize` has no check of `db_env_opened`; on every
Environment, the open `envOpen` among them, it returns `0` and overwrites the configured
cache budget (here `0` becomes `2 ^ 30`). -/
theorem set_cachesize_ignores_open :
    (∀ (env : DbEnvInternal) (gbytes bytes : Nat) (ncache : Int),
        (__toku_db_env_set_cachesize env gbytes bytes ncache).1 = 0) ∧
      db_env_opened envOpen = true ∧ envOpen.cachetable_size = 0 ∧
      (__toku_db_env_set_cachesize envOpen 1 0 1).2.cachetable_size = 2 ^ 30 := by
  refine ⟨fun _ _ _ _ => rfl, ?_, ?_, ?_⟩ <;> decide

/-- C8: on an unopened Database, with a file name whose full path exists, no sub-database
name and flags holding `DB_CREATE` and `DB_EXCL`, `open` fails without calling the Tree and
leaves `full_fname` and `database_name` null; the failure is `EEXIST` (when the copy of the
empty sub-database name cannot be allocated the failure is `ENOMEM`). -/
theorem db_open_create_excl_exists (K : Consts) (w : World) (env : DbEnvInternal)
    (db : DbInternal) (txn : Option Nat) (fname full : CStr) (dbtype flags : Nat) (mode : Int)
    (hun : db.full_fname = none)
    (hfull : construct_full_name w (env.dir.getD []) fname = some full)
    (hex : w.stat full = 0)
    (hc : flags &&& K.DB_CREATE ≠ 0) (he : flags &&& K.DB_EXCL ≠ 0) :
    (__toku_db_open K w env db txn fname none dbtype flags mode).1
        = (if w.malloc_ok 1 then EEXIST else ENOMEM) ∧
      (__toku_db_open K w env db txn fname none dbtype flags mode).1 ≠ 0 ∧
      (__toku_db_open K w env db txn fname none dbtype flags mode).2.2 = [] ∧
      (__toku_db_open K w env db txn fname none dbtype flags mode).2.1.full_fname = none ∧
      (__toku_db_open K w env db txn fname none dbtype flags mode).2.1.database_name = none := by
  unfold __toku_db_open
  by_cases hm : w.malloc_ok 1 = true
  · simp [hun, hfull, hex, hc, he, toku_strdup, hm, EEXIST]
  · simp [hun, hfull, hex, hc, he, toku_strdup, hm, ENOMEM]

theorem db_open_create_excl_exists_witness :
    (__toku_db_open K0 w0 envOpen dbNew none (lit "t1") none 0 4097 0).1
        = (if w0.malloc_ok 1 then EEXIST else ENOMEM) ∧
      (__toku_db_open K0 w0 envOpen dbNew none (lit "t1") none 0 4097 0).1 ≠ 0 ∧
      (__toku_db_open K0 w0 envOpen dbNew none (lit "t1") none 0 4097 0).2.2 = [] ∧
      (__toku_db_open K0 w0 envOpen dbNew none (lit "t1") none 0 4097 0).2.1.full_fname = none ∧
      (__toku_db_open K0 w0 envOpen dbNew none (lit "t1") none 0 4097 0).2.1.database_name
        = none :=
  db_open_create_excl_exists K0 w0 envOpen dbNew none (lit "t1") (lit "/home/t1") 0 4097 0
    (by decide) (by decide) (by decide) (by decide) (by decide)

/-- C9: on a Database whose `full_fname` and `database_name` are null, every call of `open`
that returns `0` leaves both non-null and every call that returns an error leaves both
null; so `full_fname` is non-null afterwards iff the call opened the Database. -/
theorem db_open_names_iff_opened (K : Consts) (w : World) (env : DbEnvInternal)
    (db : DbInternal) (txn : Option Nat) (fname : CStr) (dbname : Option CStr)
    (dbtype flags : Nat) (mode : Int)
    (h1 : db.full_fname = none) (h2 : db.database_name = none) :
    ((__toku_db_open K w env db txn fname dbname dbtype flags mode).1 = 0 →
        (__toku_db_open K w env db txn fname dbname dbtype flags mode).2.1.full_fname.isSome ∧
        (__toku_db_open K w env db txn fname dbname dbtype flags mode).2.1.database_name.isSome) ∧
      ((__toku_db_open K w env db txn fname dbname dbtype flags mode).1 ≠ 0 →
        (__toku_db_open K w env db txn fname dbname dbtype flags mode).2.1.full_fname = none ∧
        (__toku_db_open K w env db txn fname dbname dbtype flags mode).2.1.database_name = none) ∧
      ((__toku_db_open K w env db txn fname dbname dbtype flags mode).2.1.full_fname.isSome ↔
        (__toku_db_open K w env db txn fname dbname dbtype flags mode).1 = 0) := by
  unfold __toku_db_open
  by_cases hf : flags &&& K.DB_EXCL ≠ 0 ∧ flags &&& K.DB_CREATE = 0
  · rw [if_pos hf]
    simp [h1, h2, EINVAL]
  · rw [if_neg hf]
    simp only [h1, Option.isSome_none, Bool.false_eq_true, if_false]
    cases hc : construct_full_name w (env.dir.getD []) fname with
    | none => simp [ENOMEM]
    | some full =>
      simp only []
      cases hs : toku_strdup w (dbname.getD []) with
      | none => simp [ENOMEM]
      | some nm =>
        simp only [Option.isNone_some, Bool.false_eq_true, if_false]
        split_ifs <;> simp_all [EEXIST, ENOENT]

theorem db_open_names_iff_opened_witness :
    ((__toku_db_open K0 w0 envOpen dbNew none (lit "t1") none 0 1 0).1 = 0 →
        (__toku_db_open K0 w0 envOpen dbNew none (lit "t1") none 0 1 0).2.1.full_fname.isSome ∧
        (__toku_db_open K0 w0 envOpen dbNew none (lit "t1") none 0 1 0).2.1.database_name.isSome) ∧
      ((__toku_db_open K0 w0 envOpen dbNew none (lit "t1") none 0 1 0).1 ≠ 0 →
        (__toku_db_open K0 w0 envOpen dbNew none (lit "t1") none 0 1 0).2.1.full_fname = none ∧
        (__toku_db_open K0 w0 envOpen dbNew none (lit "t1") none 0 1 0).2.1.database_name = none) ∧
      ((__toku_db_open K0 w0 envOpen dbNew none (lit "t1") none 0 1 0).2.1.full_fname.isSome ↔
        (__toku_db_open K0 w0 envOpen dbNew none (lit "t1") none 0 1 0).1 = 0) :=
  db_open_names_iff_opened K0 w0 envOpen dbNew none (lit "t1") none 0 1 0 (by decide) (by decide)

/-! ## Reference counting on a shared Environment -/

theorem db_create_shared (K : Consts) (w : World) (e : DbEnvInternal) (n : Int) (flags : Nat)
    (hopen : db_env_opened e = true) (hrc : n ≠ 0) :
    (db_create K w (some (withRef e n)) flags).2.2.1
        = some (withRef e (n + (db_create K w (some (withRef e n)) flags).2.1.toList.length)) ∧
      ∀ c ∈ (db_create K w (some (withRef e n)) flags).2.2.2, isEnvClose c = false := by
  have h1 : n + 1 - 1 = n := by omega
  have h2 : db_env_opened (withRef e n) = true := hopen
  unfold db_create
  simp only [h2, db_env_add_ref, db_env_unref, withRef]
  split_ifs <;> simp_all [isEnvClose]

theorem db_close_shared (w : World) (e : DbEnvInternal) (n : Int) (db : DbInternal)
    (flags : Nat) (hrc : n ≠ 1) :
    (__toku_db_close w (withRef e n) db flags).2.2.1
        = some (withRef e
            (n - (if (__toku_db_close w (withRef e n) db flags).2.1.isNone then 1 else 0))) ∧
      ∀ c ∈ (__toku_db_close w (withRef e n) db flags).2.2.2, isEnvClose c = false := by
  have h1 : ¬ n - 1 = 0 := by omega
  unfold __toku_db_close
  by_cases hr : w.close_brt db.brt = 0
  · simp [hr, db_env_unref, h1, isEnvClose, withRef]
  · simp [hr, isEnvClose, withRef]

theorem step_shared (K : Consts) (w : World) (e : DbEnvInternal) (s : Sys) (a : Action)
    (hopen : db_env_opened e = true) (hinv : SharedInv e s) (ha : a.isDbCall = true) :
    ∃ s1, step K w s a = some s1 ∧ SharedInv e s1 := by
  obtain ⟨henv, hcalls⟩ := hinv
  cases a with
  | env_close f => exact absurd ha (by simp [Action.isDbCall])
  | db_create flags =>
    have hrc : (1 + (s.dbs.length : Int)) ≠ 0 := by omega
    obtain ⟨h1, h2⟩ := db_create_shared K w e _ flags hopen hrc
    refine ⟨_, by simp only [step, henv]; rfl, ?_, ?_⟩
    · simp only [h1, List.length_append]
      congr 2
      push_cast
      ring
    · intro c hc
      rcases List.mem_append.mp hc with hc | hc
      · exact hcalls c hc
      · exact h2 c hc
  | db_close i flags =>
    cases hget : s.dbs.get? i with
    | none => exact ⟨s, by simp only [step, hget], henv, hcalls⟩
    | some db =>
      have hi : i < s.dbs.length := by
        by_contra hcon
        rw [List.get?_eq_none.mpr (not_lt.mp hcon)] at hget
        exact Option.noConfusion hget
      have hrc : (1 + (s.dbs.length : Int)) ≠ 1 := by omega
      obtain ⟨h1, h2⟩ := db_close_shared w e _ db flags hrc
      refine ⟨_, by simp only [step, hget, henv]; rfl, ?_, ?_⟩
      · simp only [h1]
        congr 2
        split_ifs with hfree
        · simp only [List.length_eraseIdx, hi, if_true]
          have : 1 ≤ s.dbs.length := by omega
          push_cast [this]
          ring
        · simp
      · intro c hc
        rcases List.mem_append.mp hc with hc | hc
        · exact hcalls c hc
        · exact h2 c hc

theorem run_shared (K : Consts) (w : World) (e : DbEnvInternal) (hopen : db_env_opened e = true)
    (acts : List Action) : ∀ (s : Sys), SharedInv e s →
      (∀ a ∈ acts, a.isDbCall = true) →
      ∃ s1, run K w s acts = some s1 ∧ SharedInv e s1 := by
  induction acts with
  | nil => intro s hinv _; exact ⟨s, rfl, hinv⟩
  | cons a as ih =>
    intro s hinv hacts
    obtain ⟨s1, hs1, hinv1⟩ := step_shared K w e s a hopen hinv (hacts a (List.mem_cons_self _ _))
    obtain ⟨s2, hs2, hinv2⟩ := ih s1 hinv1 (fun b hb => hacts b (List.mem_cons_of_mem _ hb))
    exact ⟨s2, by simp only [run, hs1, hs2], hinv2⟩

/-- C3, as stated, fails: on the open shared Environment `envOpen` (reference count `1`),
`db_create(env)` followed by the creator's `env->close(env, 0)` runs the Environment's close
(Cache close, free) while one Database is still attached. -/
theorem env_close_with_database_attached :
    (run K0 w0 { env := some envOpen, dbs := [], calls := [] }
        [Action.db_create 0, Action.env_close 0]).map (fun s => (s.env, s.dbs.length, s.calls))
      = some (none, 1, [Call.brt_create, Call.cachetable_close 5, Call.free_env]) := by
  decide

/-- C3 (amended): on a shared, opened Environment whose creator holds the initial reference,
every interleaving of `db_create(env)` calls and Database close calls leaves the Environment
alive with a reference count of one plus the number of attached Databases and runs no part
of the Environment's close; the close (Cache close, Logger close, free) runs exactly once,
at the creator's `env->close(env, 0)`, which does not consult the reference count or the
attached Databases. -/
theorem shared_env_closed_by_creator_only (K : Consts) (w : World) (e : DbEnvInternal)
    (acts : List Action) (hopen : db_env_opened e = true) (hrc : e.ref_count = 1)
    (hacts : ∀ a ∈ acts, a.isDbCall = true) :
    ∃ s, run K w { env := some e, dbs := [], calls := [] } acts = some s ∧
      s.env = some (withRef e (1 + s.dbs.length)) ∧
      (∀ c ∈ s.calls, isEnvClose c = false) ∧
      ∃ s2, step K w s (Action.env_close 0) = some s2 ∧ s2.env = none ∧ s2.dbs = s.dbs ∧
        s2.calls = s.calls ++ ([Call.cachetable_close e.cachetable] ++
          (if e.logger ≠ 0 then [Call.logger_close e.logger] else []) ++ [Call.free_env]) ∧
        s2.calls.count Call.free_env = 1 := by
  have hinit : SharedInv e { env := some e, dbs := [], calls := [] } := by
    refine ⟨?_, fun c hc => absurd hc (List.not_mem_nil c)⟩
    show some e = some (withRef e (1 + 0))
    cases e
    simp only [withRef] at hrc ⊢
    simp [hrc]
  obtain ⟨s, hs, henv, hcalls⟩ := run_shared K w e hopen acts _ hinit hacts
  have hct : e.cachetable ≠ 0 := by
    intro h0
    simp [db_env_opened, h0] at hopen
  have hstep : step K w s (Action.env_close 0) = some
      { env := none, dbs := s.dbs,
        calls := s.calls ++ ([Call.cachetable_close e.cachetable] ++
          (if e.logger ≠ 0 then [Call.logger_close e.logger] else []) ++ [Call.free_env]) } := by
    simp [step, henv, __toku_db_env_close, withRef, hct]
  refine ⟨s, hs, henv, hcalls, _, hstep, rfl, rfl, rfl, ?_⟩
  have h0 : s.calls.count Call.free_env = 0 :=
    List.count_eq_zero.mpr (fun hmem => by simpa [isEnvClose] using hcalls _ hmem)
  simp only [List.count_append, h0]
  split_ifs <;> simp

theorem shared_env_closed_by_creator_only_witness :
    ∃ s, run K0 w0 { env := some envOpen, dbs := [], calls := [] }
        [Action.db_create 0, Action.db_create 0, Action.db_close 0 0] = some s ∧
      s.env = some (withRef envOpen (1 + s.dbs.length)) ∧
      (∀ c ∈ s.calls, isEnvClose c = false) ∧
      ∃ s2, step K0 w0 s (Action.env_close 0) = some s2 ∧ s2.env = none ∧ s2.dbs = s.dbs ∧
        s2.calls = s.calls ++ ([Call.cachetable_close envOpen.cachetable] ++
          (if envOpen.logger ≠ 0 then [Call.logger_close envOpen.logger] else []) ++
          [Call.free_env]) ∧
        s2.calls.count Call.free_env = 1 :=
  shared_env_closed_by_creator_only K0 w0 envOpen
    [Action.db_create 0, Action.db_create 0, Action.db_close 0 0] (by decide) (by decide)
    (by decide)

/-! ## Reading `DB_CONFIG` -/

theorem read_loop_line (w : World) (fe : Option Int) (env : DbEnvInternal) (rest : List Char) :
    ∀ (line : List Char), (∀ c ∈ line, c ≠ Char.ofNat 10) → ∀ (bs : Nat) (acc : List Char),
      (read_loop w fe env bs acc (line ++ Char.ofNat 10 :: rest)).1 = 0 →
      (process_line w env (acc ++ line)).1 = 0 ∧
        ∃ bs1, read_loop w fe env bs acc (line ++ Char.ofNat 10 :: rest)
          = read_loop w fe (process_line w env (acc ++ line)).2 bs1 [] rest := by
  intro line
  induction line with
  | nil =>
    intro _ bs acc h
    simp only [List.nil_append, List.append_nil, read_loop, if_true] at h ⊢
    by_cases hr : (process_line w env acc).1 = 0
    · simp only [hr, ne_eq, not_true_eq_false, if_false] at h ⊢
      exact ⟨trivial, bs, rfl⟩
    · simp only [ne_eq, hr, not_false_eq_true, if_true] at h
  | cons c line ih =>
    intro hnl bs acc h
    have hc : c ≠ Char.ofNat 10 := hnl c (List.mem_cons_self _ _)
    have hl : ∀ d ∈ line, d ≠ Char.ofNat 10 := fun d hd => hnl d (List.mem_cons_of_mem _ hd)
    have e : acc ++ c :: line = (acc ++ [c]) ++ line := by simp
    simp only [List.cons_append, read_loop, hc, if_false] at h ⊢
    rw [e]
    split_ifs at h ⊢ with h1 h2
    · exact ih hl _ _ h
    · exact absurd h (by simp [ENOMEM])
    · exact ih hl _ _ h

theorem read_loop_last (w : World) (env : DbEnvInternal) :
    ∀ (line : List Char), (∀ c ∈ line, c ≠ Char.ofNat 10) → ∀ (bs : Nat) (acc : List Char),
      (read_loop w none env bs acc line).1 = 0 →
      read_loop w none env bs acc line = process_line w env (acc ++ line) := by
  intro line
  induction line with
  | nil =>
    intro _ bs acc _
    simp only [read_loop, List.append_nil]
  | cons c line ih =>
    intro hnl bs acc h
    have hc : c ≠ Char.ofNat 10 := hnl c (List.mem_cons_self _ _)
    have hl : ∀ d ∈ line, d ≠ Char.ofNat 10 := fun d hd => hnl d (List.mem_cons_of_mem _ hd)
    have e : acc ++ c :: line = (acc ++ [c]) ++ line := by simp
    simp only [read_loop, hc, if_false] at h ⊢
    rw [e]
    split_ifs at h ⊢ with h1 h2
    · exact ih hl _ _ h
    · exact absurd h (by simp [ENOMEM])
    · exact ih hl _ _ h

theorem read_loop_lines (w : World) :
    ∀ (lines : List (List Char)), lines ≠ [] → (∀ l ∈ lines, ∀ c ∈ l, c ≠ Char.ofNat 10) →
      ∀ (env : DbEnvInternal) (bs : Nat),
      (read_loop w none env bs [] (joinLines lines)).1 = 0 →
      read_loop w none env bs [] (joinLines lines) = process_lines w env lines := by
  intro lines
  induction lines with
  | nil => intro h; exact absurd rfl h
  | cons l ls ih =>
    intro _ hnl env bs h
    have hl := hnl l (List.mem_cons_self _ _)
    cases ls with
    | nil =>
      simp only [joinLines] at h ⊢
      have e := read_loop_last w env l hl bs [] h
      rw [e] at h ⊢
      simp only [List.nil_append] at h ⊢
      simp only [process_lines, h, ne_eq, not_true_eq_false, if_false]
      exact Prod.ext h rfl
    | cons l2 ls2 =>
      simp only [joinLines] at h ⊢
      obtain ⟨h0, bs1, e⟩ := read_loop_line w none env _ l hl bs [] h
      simp only [List.nil_append] at h0 e
      rw [e] at h ⊢
      have := ih (List.cons_ne_nil _ _) (fun m hm => hnl m (List.mem_cons_of_mem _ hm)) _ bs1 h
      rw [this]
      conv_rhs => rw [process_lines]
      simp only [h0, ne_eq, not_true_eq_false, if_false]

/-! ## Separating a line into command and value -/

theorem dropWhile_append_of_all {α : Type} (p : α → Bool) (xs ys : List α)
    (h : ∀ x ∈ xs, p x = true) : (xs ++ ys).dropWhile p = ys.dropWhile p := by
  induction xs with
  | nil => rfl
  | cons x xs ih =>
    have hx : p x = true := h x (List.mem_cons_self _ _)
    simp only [List.cons_append, List.dropWhile_cons, hx, if_true]
    exact ih (fun y hy => h y (List.mem_cons_of_mem _ hy))

theorem takeWhile_append_of_all {α : Type} (p : α → Bool) (xs ys : List α)
    (h : ∀ x ∈ xs, p x = true) : (xs ++ ys).takeWhile p = xs ++ ys.takeWhile p := by
  induction xs with
  | nil => rfl
  | cons x xs ih =>
    have hx : p x = true := h x (List.mem_cons_self _ _)
    simp only [List.cons_append, List.takeWhile_cons, hx, if_true]
    rw [ih (fun y hy => h y (List.mem_cons_of_mem _ hy))]

theorem dropWhile_of_head {α : Type} (p : α → Bool) (ys : List α)
    (h : ys.head?.all (fun c => !p c) = true) : ys.dropWhile p = ys ∧ ys.takeWhile p = [] := by
  cases ys with
  | nil => exact ⟨rfl, rfl⟩
  | cons y ys =>
    have hy : p y = false := by simpa using h
    simp [List.dropWhile_cons, List.takeWhile_cons, hy]

theorem rdropWhile_append_of_all {α : Type} (p : α → Bool) (xs ys : List α)
    (h : ∀ y ∈ ys, p y = true) : (xs ++ ys).rdropWhile p = xs.rdropWhile p := by
  unfold List.rdropWhile
  rw [List.reverse_append, dropWhile_append_of_all p _ _ (fun y hy => h y (List.mem_reverse.mp hy))]

theorem rdropWhile_of_getLast {α : Type} (p : α → Bool) (xs : List α)
    (h : xs.getLast?.all (fun c => !p c) = true) : xs.rdropWhile p = xs := by
  unfold List.rdropWhile
  have h2 : xs.reverse.head?.all (fun c => !p c) = true := by
    rw [List.head?_reverse]; exact h
  rw [(dropWhile_of_head p _ h2).1, List.reverse_reverse]

theorem cstr_of_no_nul (s : List Char) (h : s.all (fun c => c.toNat != 0) = true) :
    cstr s = s := by
  unfold cstr
  rw [List.takeWhile_eq_self_iff]
  intro c hc
  exact List.all_eq_true.mp h c hc

/-- The command and the value `split_line` finds behind leading white space `pre`, a
command `cmd` without white space or NUL, and a rest that is empty or starts with white
space. -/
theorem split_line_directive (pre cmd rest : List Char)
    (hpre : pre.all isspace = true) (hne : cmd ≠ [])
    (hcmd : cmd.all (fun c => !isspace c && c.toNat != 0) = true)
    (hrest : rest.head?.all isspace = true) :
    split_line (pre ++ cmd ++ rest)
      = (cmd, if (rest.drop 1).dropWhile isspace ≠ []
          then cstr (((rest.drop 1).dropWhile isspace).rdropWhile isspace) else []) := by
  have hpre2 : ∀ c ∈ pre, isspace c = true := List.all_eq_true.mp hpre
  have hcmd2 : ∀ c ∈ cmd, (!isspace c) = true := fun c hc => by
    have := List.all_eq_true.mp hcmd c hc
    simp only [Bool.and_eq_true] at this
    exact this.1
  have hcmd3 : cmd.all (fun c => c.toNat != 0) = true := by
    rw [List.all_eq_true]
    intro c hc
    have := List.all_eq_true.mp hcmd c hc
    simp only [Bool.and_eq_true] at this
    exact this.2
  have hhead : (cmd ++ rest).head?.all (fun c => !isspace c) = true := by
    cases cmd with
    | nil => exact absurd rfl hne
    | cons c cs => simpa using hcmd2 c (List.mem_cons_self _ _)
  have hrest2 : rest.head?.all (fun c => !(fun d => !isspace d) c) = true := by
    cases rest with
    | nil => rfl
    | cons c cs => simpa using hrest
  have e1 : (pre ++ cmd ++ rest).dropWhile isspace = cmd ++ rest := by
    rw [List.append_assoc, dropWhile_append_of_all isspace _ _ hpre2]
    exact (dropWhile_of_head isspace _ hhead).1
  have e2 : (cmd ++ rest).takeWhile (fun c => !isspace c) = cmd := by
    rw [takeWhile_append_of_all _ _ _ hcmd2, (dropWhile_of_head _ _ hrest2).2, List.append_nil]
  have e3 : (cmd ++ rest).dropWhile (fun c => !isspace c) = rest := by
    rw [dropWhile_append_of_all _ _ _ hcmd2]
    exact (dropWhile_of_head _ _ hrest2).1
  unfold split_line
  simp only [e1, e2, e3, cstr_of_no_nul cmd hcmd3]

/-- What `split_line` finds in a `set_data_dir V` line. -/
theorem split_line_set_data_dir (pre sep post V : List Char)
    (hpre : pre.all isspace = true) (hsep : sep.all isspace = true)
    (hpost : post.all isspace = true) (hV : isTrimmed V = true) (hsepV : V ≠ [] → sep ≠ []) :
    split_line (pre ++ lit "set_data_dir" ++ sep ++ V ++ post) = (lit "set_data_dir", V) := by
  have hsep2 : ∀ c ∈ sep, isspace c = true := List.all_eq_true.mp hsep
  have hpost2 : ∀ c ∈ post, isspace c = true := List.all_eq_true.mp hpost
  simp only [isTrimmed, Bool.and_eq_true] at hV
  obtain ⟨⟨hV0, hVh⟩, hVl⟩ := hV
  have e0 : pre ++ lit "set_data_dir" ++ sep ++ V ++ post
      = pre ++ lit "set_data_dir" ++ (sep ++ V ++ post) := by
    simp only [List.append_assoc]
  have hrest : (sep ++ V ++ post).head?.all isspace = true := by
    cases sep with
    | nil =>
      cases V with
      | nil =>
        cases post with
        | nil => rfl
        | cons c cs => simpa using hpost2 c (List.mem_cons_self _ _)
      | cons v vs => exact absurd rfl (hsepV (List.cons_ne_nil _ _))
    | cons c cs => simpa using hsep2 c (List.mem_cons_self _ _)
  rw [e0, split_line_directive pre (lit "set_data_dir") _ hpre (by decide) (by decide) hrest]
  congr 1
  cases V with
  | nil =>
    have hall : ∀ c ∈ (sep ++ [] ++ post).drop 1, isspace c = true := by
      intro c hc
      have hc2 := List.mem_of_mem_drop hc
      simp only [List.append_nil, List.mem_append] at hc2
      rcases hc2 with h | h
      · exact hsep2 c h
      · exact hpost2 c h
    have e1 : ((sep ++ [] ++ post).drop 1).dropWhile isspace = [] := by
      have := dropWhile_append_of_all isspace ((sep ++ [] ++ post).drop 1) [] hall
      simpa using this
    simp only [e1, ne_eq, not_true_eq_false, if_false]
  | cons v vs =>
    obtain ⟨c, cs, rfl⟩ := List.exists_cons_of_ne_nil (hsepV (List.cons_ne_nil _ _))
    have hcs : ∀ d ∈ cs, isspace d = true := fun d hd => hsep2 d (List.mem_cons_of_mem _ hd)
    have e1 : ((c :: cs ++ v :: vs ++ post).drop 1).dropWhile isspace = v :: vs ++ post := by
      have e : (c :: cs ++ v :: vs ++ post).drop 1 = cs ++ (v :: vs ++ post) := by simp
      rw [e, dropWhile_append_of_all isspace _ _ hcs]
      exact (dropWhile_of_head isspace _ (by simpa using hVh)).1
    rw [e1]
    simp only [ne_eq, List.cons_append, reduceCtorEq, not_false_eq_true, if_true]
    rw [← List.cons_append, rdropWhile_append_of_all isspace _ _ hpost2,
      rdropWhile_of_getLast isspace _ hVl, cstr_of_no_nul _ hV0]

/-! ## The effect of the lines on the data directory -/

theorem process_line_set_data_dir (w : World) (env : DbEnvInternal)
    (pre sep post V : List Char)
    (hpre : pre.all isspace = true) (hsep : sep.all isspace = true)
    (hpost : post.all isspace = true) (hV : isTrimmed V = true) (hsepV : V ≠ [] → sep ≠ [])
    (h0 : (process_line w env (pre ++ lit "set_data_dir" ++ sep ++ V ++ post)).1 = 0) :
    (process_line w env (pre ++ lit "set_data_dir" ++ sep ++ V ++ post)).2.data_dir = some V := by
  have e := split_line_set_data_dir pre sep post V hpre hsep hpost hV hsepV
  have hc : ¬ ((lit "set_data_dir").length = 0 ∨
      (lit "set_data_dir").head? = some (Char.ofNat 35)) := by decide
  unfold process_line at h0 ⊢
  simp only [e, hc, if_false, db_env_parse_config_line, if_true,
    __toku_db_env_set_data_dir] at h0 ⊢
  by_cases ho : db_env_opened env = true
  · simp [ho, EINVAL] at h0
  · simp only [ho, Bool.false_eq_true, if_false] at h0 ⊢
    cases hs : toku_strdup w V with
    | none => simp [hs, ENOMEM] at h0
    | some d =>
      have hd : d = V := by
        unfold toku_strdup at hs
        split_ifs at hs
        exact (Option.some.inj hs).symm
      rw [hd]

theorem process_line_blank (w : World) (env : DbEnvInternal) (l : List Char)
    (h : isBlank l = true) : process_line w env l = (0, env) := by
  have hall : ∀ c ∈ l, isspace c = true := List.all_eq_true.mp h
  have e1 : l.dropWhile isspace = [] := by
    have := dropWhile_append_of_all isspace l [] hall
    simpa using this
  simp [process_line, split_line, e1, cstr]

theorem process_line_comment (w : World) (env : DbEnvInternal) (l : List Char)
    (h : isComment l = true) : process_line w env l = (0, env) := by
  simp only [isComment, decide_eq_true_eq] at h
  cases hb : l.dropWhile isspace with
  | nil => rw [hb] at h; exact absurd h (by simp)
  | cons c cs =>
    rw [hb] at h
    have hc : c = Char.ofNat 35 := by simpa using h
    subst hc
    have h1 : isspace (Char.ofNat 35) = false := by decide
    have h2 : ((Char.ofNat 35).toNat != 0) = true := by decide
    simp [process_line, split_line, hb, cstr, List.takeWhile_cons, h1, h2]

theorem split_line_isDirective (cmd : CStr) (l : List Char) (hne : cmd ≠ [])
    (hcmd : cmd.all (fun c => !isspace c && c.toNat != 0) = true)
    (h : isDirective cmd l = true) : (split_line l).1 = cmd := by
  simp only [isDirective, Bool.and_eq_true, decide_eq_true_eq] at h
  obtain ⟨h1, h2⟩ := h
  have hpre : (l.takeWhile isspace).all isspace = true := by
    rw [List.all_eq_true]
    intro c hc
    exact (List.mem_takeWhile_imp hc)
  have e : l = l.takeWhile isspace ++ cmd ++ (l.dropWhile isspace).drop cmd.length := by
    rw [List.append_assoc]
    conv_lhs => rw [← List.takeWhile_append_dropWhile isspace l]
    congr 1
    conv_lhs => rw [← List.take_append_drop cmd.length (l.dropWhile isspace), h1]
  rw [e, split_line_directive _ cmd _ hpre hne hcmd h2]

theorem process_line_other (w : World) (env : DbEnvInternal) (l : List Char)
    (h : isBlank l = true ∨ isComment l = true ∨ isDirective (lit "set_tmp_dir") l = true ∨
      isDirective (lit "set_lg_dir") l = true) :
    (process_line w env l).2.data_dir = env.data_dir := by
  rcases h with h | h | h | h
  · rw [process_line_blank w env l h]
  · rw [process_line_comment w env l h]
  · have e := split_line_isDirective (lit "set_tmp_dir") l (by decide) (by decide) h
    have hc : ¬ ((lit "set_tmp_dir").length = 0 ∨
        (lit "set_tmp_dir").head? = some (Char.ofNat 35)) := by decide
    have hd : ¬ (lit "set_tmp_dir" = lit "set_data_dir") := by decide
    unfold process_line
    simp only [e, hc, if_false, db_env_parse_config_line, hd, if_true,
      __toku_db_env_set_tmp_dir]
    split_ifs <;> rfl
  · have e := split_line_isDirective (lit "set_lg_dir") l (by decide) (by decide) h
    have hc : ¬ ((lit "set_lg_dir").length = 0 ∨
        (lit "set_lg_dir").head? = some (Char.ofNat 35)) := by decide
    have hd : ¬ (lit "set_lg_dir" = lit "set_data_dir") := by decide
    have ht : ¬ (lit "set_lg_dir" = lit "set_tmp_dir") := by decide
    unfold process_line
    simp only [e, hc, if_false, db_env_parse_config_line, hd, ht, if_true,
      __toku_db_env_set_lg_dir]
    split_ifs <;> rfl

theorem process_lines_append (w : World) (xs ys : List (List Char)) :
    ∀ (env : DbEnvInternal), process_lines w env (xs ++ ys)
      = if (process_lines w env xs).1 ≠ 0 then process_lines w env xs
        else process_lines w (process_lines w env xs).2 ys := by
  induction xs with
  | nil => intro env; simp [process_lines]
  | cons x xs ih =>
    intro env
    simp only [List.cons_append, process_lines]
    by_cases hx : (process_line w env x).1 = 0
    · simp only [hx, ne_eq, not_true_eq_false, if_false]
      exact ih _
    · simp only [ne_eq, hx, not_false_eq_true, if_true]

theorem process_lines_other (w : World) (ls : List (List Char))
    (h : ∀ l ∈ ls, isBlank l = true ∨ isComment l = true ∨
      isDirective (lit "set_tmp_dir") l = true ∨ isDirective (lit "set_lg_dir") l = true) :
    ∀ (env : DbEnvInternal), (process_lines w env ls).2.data_dir = env.data_dir := by
  induction ls with
  | nil => intro env; rfl
  | cons l ls ih =>
    intro env
    have hl := process_line_other w env l (h l (List.mem_cons_self _ _))
    simp only [process_lines]
    split_ifs
    · exact hl
    · rw [ih (fun m hm => h m (List.mem_cons_of_mem _ hm)), hl]

theorem process_lines_data_dir (w : World) (env : DbEnvInternal)
    (before after : List (List Char)) (pre sep post V : List Char)
    (hpre : pre.all isspace = true) (hsep : sep.all isspace = true)
    (hpost : post.all isspace = true) (hV : isTrimmed V = true) (hsepV : V ≠ [] → sep ≠ [])
    (hafter : ∀ l ∈ after, isBlank l = true ∨ isComment l = true ∨
      isDirective (lit "set_tmp_dir") l = true ∨ isDirective (lit "set_lg_dir") l = true)
    (h0 : (process_lines w env
      (before ++ [pre ++ lit "set_data_dir" ++ sep ++ V ++ post] ++ after)).1 = 0) :
    (process_lines w env
      (before ++ [pre ++ lit "set_data_dir" ++ sep ++ V ++ post] ++ after)).2.data_dir
        = some V := by
  rw [List.append_assoc, process_lines_append] at h0 ⊢
  by_cases hb : (process_lines w env before).1 = 0
  · simp only [hb, ne_eq, not_true_eq_false, if_false, List.singleton_append,
      process_lines] at h0 ⊢
    by_cases hl : (process_line w (process_lines w env before).2
        (pre ++ lit "set_data_dir" ++ sep ++ V ++ post)).1 = 0
    · simp only [hl, not_true_eq_false, if_false] at h0 ⊢
      have e : ([] : List (List Char)).append after = after := rfl
      rw [e, process_lines_other w after hafter]
      exact process_line_set_data_dir w _ pre sep post V hpre hsep hpost hV hsepV hl
    · simp only [hl, not_false_eq_true, if_true] at h0
  · simp only [ne_eq, hb, not_false_eq_true, if_true] at h0

theorem env_open_tail_data_dir (K : Consts) (w : World) (env : DbEnvInternal) (flags : Nat) :
    (env_open_tail K w env flags).2.1.data_dir = env.data_dir := by
  unfold env_open_tail
  simp only []
  split_ifs <;> rfl

theorem read_config_data_dir (w : World) (env : DbEnvInternal) (home : CStr) (flags : Nat)
    (f : ConfigFile) (before after : List (List Char)) (pre sep post V : List Char)
    (hdir : env.dir = some home)
    (hfopen : ∀ p, construct_full_name w home (lit "DB_CONFIG") = some p →
      w.fopen p = Except.ok f)
    (hcontent : f.content
      = joinLines (before ++ [pre ++ lit "set_data_dir" ++ sep ++ V ++ post] ++ after))
    (hferr : f.ferror = none)
    (hnl : ∀ l ∈ before ++ [pre ++ lit "set_data_dir" ++ sep ++ V ++ post] ++ after,
      ∀ c ∈ l, c ≠ Char.ofNat 10)
    (hpre : pre.all isspace = true) (hsep : sep.all isspace = true)
    (hpost : post.all isspace = true) (hV : isTrimmed V = true) (hsepV : V ≠ [] → sep ≠ [])
    (hafter : ∀ l ∈ after, isBlank l = true ∨ isComment l = true ∨
      isDirective (lit "set_tmp_dir") l = true ∨ isDirective (lit "set_lg_dir") l = true)
    (h0 : (db_env_read_config w env flags).1 = 0) :
    (db_env_read_config w env flags).2.data_dir = some V := by
  unfold db_env_read_config at h0 ⊢
  simp only [hdir, Option.getD_some] at h0 ⊢
  cases hc : construct_full_name w home (lit "DB_CONFIG") with
  | none => simp [hc, ENOMEM] at h0
  | some p =>
    simp only [hc, hfopen p hc, hferr, hcontent] at h0 ⊢
    by_cases hm : w.malloc_ok (2 ^ 10) = true
    · simp only [hm, Bool.not_true, Bool.false_eq_true, if_false] at h0 ⊢
      have hne : before ++ [pre ++ lit "set_data_dir" ++ sep ++ V ++ post] ++ after ≠ [] := by
        simp
      by_cases hr : (read_loop w none env (2 ^ 10) []
          (joinLines (before ++ [pre ++ lit "set_data_dir" ++ sep ++ V ++ post] ++ after))).1 = 0
      · have e := read_loop_lines w _ hne hnl env (2 ^ 10) hr
        rw [e] at hr ⊢
        exact process_lines_data_dir w env before after pre sep post V hpre hsep hpost hV hsepV
          hafter hr
      · simp only [ne_eq, hr, not_false_eq_true, if_true] at h0
    · rw [Bool.not_eq_true] at hm
      rw [hm] at h0
      simp [ENOMEM] at h0

/-- C10: when `DB_CONFIG` holds a line `set_data_dir V` (white space before the command,
between command and value and after the value; `V` without surrounding white space),
followed only by blank lines, comment lines and `set_tmp_dir` / `set_lg_dir` lines, every
successful `open` leaves the data directory equal to `V`, whatever it was before the call
and whatever lines precede; blank and comment lines leave the Environment as it is. -/
theorem config_data_dir_precedence (K : Consts) (w : World) (env : DbEnvInternal)
    (home : CStr) (flags : Nat) (mode : Int) (f : ConfigFile)
    (before after : List (List Char)) (pre sep post V : List Char)
    (hfopen : ∀ p, construct_full_name w home (lit "DB_CONFIG") = some p →
      w.fopen p = Except.ok f)
    (hcontent : f.content
      = joinLines (before ++ [pre ++ lit "set_data_dir" ++ sep ++ V ++ post] ++ after))
    (hferr : f.ferror = none)
    (hnl : ∀ l ∈ before ++ [pre ++ lit "set_data_dir" ++ sep ++ V ++ post] ++ after,
      ∀ c ∈ l, c ≠ Char.ofNat 10)
    (hpre : pre.all isspace = true) (hsep : sep.all isspace = true)
    (hpost : post.all isspace = true) (hV : isTrimmed V = true) (hsepV : V ≠ [] → sep ≠ [])
    (hafter : ∀ l ∈ after, isBlank l = true ∨ isComment l = true ∨
      isDirective (lit "set_tmp_dir") l = true ∨ isDirective (lit "set_lg_dir") l = true)
    (hopen : (__toku_db_env_open K w env (some home) flags mode).1 = 0) :
    (__toku_db_env_open K w env (some home) flags mode).2.1.data_dir = some V ∧
      ∀ (e : DbEnvInternal) (l : List Char), isBlank l = true ∨ isComment l = true →
        process_line w e l = (0, e) := by
  refine ⟨?_, fun e l hl => hl.elim (process_line_blank w e l) (process_line_comment w e l)⟩
  unfold __toku_db_env_open at hopen ⊢
  by_cases ho : db_env_opened env = true
  · simp [ho, EINVAL] at hopen
  · simp only [ho, Bool.false_eq_true, if_false] at hopen ⊢
    by_cases hst : w.stat home = 0
    · simp only [hst, ne_eq, not_true_eq_false, if_false] at hopen ⊢
      by_cases hp : flags &&& K.DB_PRIVATE = 0
      · simp [hp, EINVAL] at hopen
      · simp only [hp, if_false] at hopen ⊢
        cases hs : toku_strdup w home with
        | none => simp [hs, ENOMEM] at hopen
        | some d =>
          have hd : d = home := by
            unfold toku_strdup at hs
            split_ifs at hs
            exact (Option.some.inj hs).symm
          subst hd
          simp only [hs, Option.isNone_some, Bool.false_eq_true, if_false] at hopen ⊢
          by_cases hr : (db_env_read_config w { env with dir := some d } flags).1 = 0
          · simp only [hr, ne_eq, not_true_eq_false, if_false] at hopen ⊢
            rw [env_open_tail_data_dir]
            exact read_config_data_dir w _ d flags f before after pre sep post V rfl hfopen
              hcontent hferr hnl hpre hsep hpost hV hsepV hafter hr
          · simp only [ne_eq, hr, not_false_eq_true, if_true] at hopen
    · simp only [ne_eq, hst, not_false_eq_true, if_true] at hopen

theorem config_data_dir_precedence_witness :
    (__toku_db_env_open K0 wCfg envOld (some (lit "/home")) 2097152 0).1 = 0 ∧
      (__toku_db_env_open K0 wCfg envOld (some (lit "/home")) 2097152 0).2.1.data_dir
        = some (lit "/x") ∧
      ∀ (e : DbEnvInternal) (l : List Char), isBlank l = true ∨ isComment l = true →
        process_line wCfg e l = (0, e) :=
  ⟨by decide,
    config_data_dir_precedence K0 wCfg envOld (lit "/home") 2097152 0
      { content := lit "# cfg\n  set_data_dir   /x  \n\nset_lg_dir logs", ferror := none,
        fclose := 0 }
      [lit "# cfg"] [[], lit "set_lg_dir logs"] (lit "  ") (lit "   ") (lit "  ") (lit "/x")
      (fun _ _ => rfl) (by decide) rfl (by decide) (by decide) (by decide) (by decide)
      (by decide) (by decide) (by decide) (by decide)⟩

/-! ## Transactions, close, remove, rename -/

/-- C15: `commit` on a Transaction returns the result of the Logger's commit; when that is
non-zero the Transaction (Logger handle and parent link) stays as it was and is not freed,
when it is zero the Transaction is freed and the result is `0`; on a null handle `commit`
returns `-1` and makes no call. -/
theorem txn_commit_follows_logger (w : World) (tokutxn : Nat) (parent : DbTxnPtr)
    (flags : Nat) :
    (__toku_db_txn_commit w (.ptr tokutxn parent) flags).1 = w.tokulogger_log_commit tokutxn ∧
      (w.tokulogger_log_commit tokutxn ≠ 0 →
        (__toku_db_txn_commit w (.ptr tokutxn parent) flags).2
          = (some (.ptr tokutxn parent), [Call.tokulogger_log_commit tokutxn])) ∧
      (w.tokulogger_log_commit tokutxn = 0 →
        __toku_db_txn_commit w (.ptr tokutxn parent) flags
          = (0, none, [Call.tokulogger_log_commit tokutxn, Call.free_txn])) ∧
      __toku_db_txn_commit w .null flags = (-1, some .null, []) := by
  unfold __toku_db_txn_commit
  by_cases h : w.tokulogger_log_commit tokutxn = 0 <;> simp [h]

/-- C16: `close` with flags `0` on an Environment that holds a Cache and a Logger calls the
Cache close, then the Logger close, then frees the Environment, whatever the two return,
and returns the Cache result when that is non-zero, else the Logger result; with non-zero
flags it returns `EINVAL`, makes no call and leaves the Environment as it was. -/
theorem env_close_closes_both (w : World) (env : DbEnvInternal) (hct : env.cachetable ≠ 0)
    (hlg : env.logger ≠ 0) :
    __toku_db_env_close w env 0
        = (if (w.cachetable_close env.cachetable).1 ≠ 0 then (w.cachetable_close env.cachetable).1
            else (w.logger_close env.logger).1,
          none,
          [Call.cachetable_close env.cachetable, Call.logger_close env.logger, Call.free_env]) ∧
      ∀ flags : Nat, flags ≠ 0 → __toku_db_env_close w env flags = (EINVAL, some env, []) := by
  constructor
  · unfold __toku_db_env_close
    simp only [hct, hlg, ne_eq, not_true_eq_false, not_false_eq_true, if_true, if_false]
    by_cases h0 : (w.cachetable_close env.cachetable).1 = 0 <;>
      by_cases h1 : (w.logger_close env.logger).1 = 0 <;> simp [h0, h1]
  · intro flags hf
    unfold __toku_db_env_close
    simp [hf]

theorem env_close_closes_both_witness :
    __toku_db_env_close w0 { envOpen with logger := 7 } 0
        = (if (w0.cachetable_close 5).1 ≠ 0 then (w0.cachetable_close 5).1
            else (w0.logger_close 7).1,
          none, [Call.cachetable_close 5, Call.logger_close 7, Call.free_env]) ∧
      ∀ flags : Nat, flags ≠ 0 →
        __toku_db_env_close w0 { envOpen with logger := 7 } flags
          = (EINVAL, some { envOpen with logger := 7 }, []) :=
  env_close_closes_both w0 { envOpen with logger := 7 } (by decide) (by decide)

/-- C17 fails on the code: when the Tree's close returns a non-zero `r`, `__toku_db_close`
returns `r` at once; the Environment keeps its reference count, the Database and its name
strings are not freed.  Here the Tree's close returns `5` on the open Database `dbOpen` of
an Environment with reference count `2`. -/
theorem db_close_stops_on_tree_error :
    __toku_db_close wCloseFails (withRef envOpen 2) dbOpen 0
        = (5, some dbOpen, some (withRef envOpen 2), [Call.close_brt 9]) ∧
      __toku_db_close w0 (withRef envOpen 2) dbOpen 0
        = (0, none, some (withRef envOpen 1), [Call.close_brt 9, Call.free_db]) := by
  decide

/-- C18, as stated, fails: when the sub-database removal fails with `3` and the close then
fails with `5`, `remove` returns `3`, the removal error, not the close error. -/
theorem db_remove_returns_removal_error_first :
    (__toku_db_remove K0 wRemoveFails (withRef envOpen 2) dbNew (lit "t1") (some (lit "sub"))
        0).1 = 3 ∧
      (__toku_db_close wRemoveFails (withRef envOpen 2)
        (__toku_db_open K0 wRemoveFails (withRef envOpen 2) dbNew none (lit "t1")
          (some (lit "sub")) K0.DB_BTREE 0 511).2.1 0).1 = 5 := by
  decide

theorem db_open_keeps_brt (K : Consts) (w : World) (env : DbEnvInternal) (db : DbInternal)
    (txn : Option Nat) (fname : CStr) (dbname : Option CStr) (dbtype flags : Nat) (mode : Int) :
    (__toku_db_open K w env db txn fname dbname dbtype flags mode).2.1.brt = db.brt := by
  unfold __toku_db_open
  simp only []
  split_ifs <;> (try rfl) <;> split <;> (try rfl); split_ifs <;> rfl

theorem db_close_calls_tree (w : World) (env : DbEnvInternal) (db : DbInternal) (flags : Nat) :
    Call.close_brt db.brt ∈ (__toku_db_close w env db flags).2.2.2 := by
  unfold __toku_db_close
  simp only []
  split_ifs <;> simp

/-- C18 (amended): `remove` with a `dbname` opens the Database, removes the sub-database
when the open succeeded, and calls the Database close in every case; it returns the open
or removal error when there is one, whatever the close returns, and the close result
otherwise. -/
theorem db_remove_subdb_result (K : Consts) (w : World) (env : DbEnvInternal)
    (db : DbInternal) (fname name : CStr) (flags : Nat) :
    (__toku_db_remove K w env db fname (some name) flags).1
        = (if (__toku_db_open K w env db none fname (some name) K.DB_BTREE 0 511).1 ≠ 0 then
            (__toku_db_open K w env db none fname (some name) K.DB_BTREE 0 511).1
          else if w.brt_remove_subdb
              (__toku_db_open K w env db none fname (some name) K.DB_BTREE 0 511).2.1.brt
              name flags ≠ 0 then
            w.brt_remove_subdb
              (__toku_db_open K w env db none fname (some name) K.DB_BTREE 0 511).2.1.brt
              name flags
          else
            (__toku_db_close w env
              (__toku_db_open K w env db none fname (some name) K.DB_BTREE 0 511).2.1 0).1) ∧
      Call.close_brt db.brt ∈ (__toku_db_remove K w env db fname (some name) flags).2.2.2 := by
  refine ⟨?_, ?_⟩
  · unfold __toku_db_remove
    simp only []
    split_ifs <;> simp_all
  · unfold __toku_db_remove
    simp only []
    apply List.mem_append_right
    rw [← db_open_keeps_brt K w env db none fname (some name) K.DB_BTREE 0 511]
    exact db_close_calls_tree w env _ 0

/-- C19 fails on the code: `__toku_db_rename` builds both paths with `"%s%s"`, directory
and name without a separator; for the directory `/home` and the names `a` and `c` it calls
`rename("/homea", "/homec")`, while the paths `open` computes are `/home/a` and
`/home/c`. -/
theorem db_rename_joins_without_separator :
    __toku_db_rename w0 envOpen (lit "a") none (lit "c") 0
        = some (0, [Call.rename (lit "/homea") (lit "/homec")]) ∧
      construct_full_name w0 (envOpen.dir.getD []) (lit "a") = some (lit "/home/a") ∧
      construct_full_name w0 (envOpen.dir.getD []) (lit "c") = some (lit "/home/c") := by
  decide

/-- In a buffer that holds directory, separator, name and terminator,
`construct_full_name_in_buf` succeeds and leaves the directory, a `/` unless the directory
ends with one or the name starts with one, and the name. -/
theorem construct_full_name_in_buf_fits (dir fname : CStr) (n : Nat)
    (hn : dir.length + fname.length + 2 ≤ n) :
    construct_full_name_in_buf dir fname true n
      = (0, dir ++ (if dir.getLast? ≠ some (Char.ofNat 47) ∧ fname.head? ≠ some (Char.ofNat 47)
          then [Char.ofNat 47] else []) ++ fname) := by
  have h1 : dir.take (n - 1) = dir := List.take_of_length_le (by omega)
  have h2 : ¬ dir.length ≥ n := by omega
  have h3 : ¬ dir.length + 1 = n := by omega
  have h4 : (dir.length = 0 ∨ dir.getLast? ≠ some (Char.ofNat 47))
      ↔ dir.getLast? ≠ some (Char.ofNat 47) := by
    constructor
    · rintro (h | h)
      · rw [List.length_eq_zero.mp h]; simp
      · exact h
    · exact Or.inr
  unfold construct_full_name_in_buf
  simp only [Bool.not_true, Bool.false_eq_true, if_false, h1, h2, h3, and_false, h4]
  by_cases hs : dir.getLast? ≠ some (Char.ofNat 47) ∧ fname.head? ≠ some (Char.ofNat 47)
  · have h5 : fname.take (n - (dir.length + 1) - 1) = fname := List.take_of_length_le (by omega)
    have h6 : ¬ dir.length + 1 + fname.length ≥ n := by omega
    rw [if_pos hs, if_pos hs, if_pos hs, if_neg h6, h5]
  · have h5 : fname.take (n - dir.length - 1) = fname := List.take_of_length_le (by omega)
    have h6 : ¬ dir.length + fname.length ≥ n := by omega
    rw [if_neg hs, if_neg hs, if_neg hs, if_neg h6, h5, List.append_nil]

theorem construct_full_name_of_dir (w : World) (d fname : CStr) :
    (if (construct_full_name_in_buf d fname (w.malloc_ok (d.length + fname.length + 2))
          (d.length + fname.length + 2)).1 ≠ 0 then none
      else some (construct_full_name_in_buf d fname (w.malloc_ok (d.length + fname.length + 2))
          (d.length + fname.length + 2)).2)
      = if w.malloc_ok (d.length + fname.length + 2) then
          some (d ++ (if d.getLast? ≠ some (Char.ofNat 47) ∧ fname.head? ≠ some (Char.ofNat 47)
            then [Char.ofNat 47] else []) ++ fname)
        else none := by
  cases hm : w.malloc_ok (d.length + fname.length + 2) with
  | true =>
    rw [construct_full_name_in_buf_fits d fname _ (le_refl _)]
    simp
  | false => simp [construct_full_name_in_buf, EINVAL]

/-- C20: when its allocation succeeds, `construct_full_name(dir, fname)` is `fname` itself
for an `fname` that starts with `/`; otherwise it is `dir` followed by `fname`, with one `/`
inserted between them exactly when `dir` does not end with `/`.  When the allocation fails
it is null. -/
theorem construct_full_name_joins (w : World) (dir fname : CStr) :
    construct_full_name w dir fname
      = if w.malloc_ok ((if fname.head? = some (Char.ofNat 47) then [] else dir).length
            + fname.length + 2)
        then some (joinPath dir fname) else none := by
  unfold construct_full_name
  simp only []
  rw [construct_full_name_of_dir]
  unfold joinPath
  by_cases habs : fname.head? = some (Char.ofNat 47)
  · simp [habs]
  · by_cases hl : dir.getLast? = some (Char.ofNat 47) <;> simp [habs, hl]

/-! ## Transaction identifiers -/

theorem beginIds_append (a b : List Call) : beginIds (a ++ b) = beginIds a ++ beginIds b := by
  induction a with
  | nil => rfl
  | cons c cs ih => cases c <;> simp [beginIds, ih]

/-- What one `__toku_txn_begin` does to the counter and the Logger. -/
theorem txn_begin_cases (K : Consts) (w : World) (env : DbEnvInternal) (n : Nat)
    (stxn : DbTxnPtr) (flags : Nat) (r : Int × DbTxnPtr × Nat × List Call)
    (h : __toku_txn_begin K w env n stxn flags = some r) :
    (r.1 ≠ 0 ∧ r.2.2.1 = n ∧ r.2.2.2 = []) ∨
      (r.2.2.1 = (n + 1) % 2 ^ 64 ∧ beginIds r.2.2.2 = [n]) := by
  unfold __toku_txn_begin at h
  simp only [] at h
  split_ifs at h with h1 h2 h3
  · left
    rw [← Option.some.inj h]
    exact ⟨by simp [ENOMEM], rfl, rfl⟩
  · right
    rw [← Option.some.inj h]
    exact ⟨rfl, rfl⟩
  · right
    rw [← Option.some.inj h]
    exact ⟨rfl, rfl⟩

theorem txn_inv_begin (s : TxnSys) (r : Int × DbTxnPtr × Nat × List Call) (pid : Option Nat)
    (hinv : TxnInv s) (hn : s.next_txn + 1 < 2 ^ 64)
    (hp : ∀ p, pid = some p → p < s.next_txn)
    (hr : (r.1 ≠ 0 ∧ r.2.2.1 = s.next_txn ∧ r.2.2.2 = []) ∨
      (r.2.2.1 = (s.next_txn + 1) % 2 ^ 64 ∧ beginIds r.2.2.2 = [s.next_txn])) :
    TxnInv { next_txn := r.2.2.1,
             txns := if r.1 = 0 then s.txns ++ [⟨r.2.1, s.next_txn, pid⟩] else s.txns,
             calls := s.calls ++ r.2.2.2 } ∧
      s.next_txn ≤ r.2.2.1 ∧ r.2.2.1 ≤ s.next_txn + 1 := by
  obtain ⟨h1, h2, h3⟩ := hinv
  rcases hr with ⟨hr1, hr2, hr3⟩ | ⟨hr2, hr3⟩
  · refine ⟨⟨?_, ?_, ?_⟩, by omega, by omega⟩
    · simpa [hr2, hr3] using h1
    · simpa [hr3] using h2
    · simpa [hr1, hr3] using h3
  · have e : (s.next_txn + 1) % 2 ^ 64 = s.next_txn + 1 := Nat.mod_eq_of_lt hn
    rw [e] at hr2
    refine ⟨⟨?_, ?_, ?_⟩, by omega, by omega⟩
    · intro i hi
      simp only [beginIds_append, hr3, List.mem_append, List.mem_singleton] at hi
      show i < r.2.2.1
      rcases hi with hi | hi
      · have := h1 i hi; omega
      · omega
    · simp only [beginIds_append, hr3]
      rw [List.pairwise_append]
      refine ⟨h2, List.pairwise_singleton _ _, ?_⟩
      intro a ha b hb
      rw [List.mem_singleton.mp hb]
      exact h1 a ha
    · intro t ht
      simp only [beginIds_append, hr3, List.mem_append, List.mem_singleton]
      split_ifs at ht with h0
      · rcases List.mem_append.mp ht with ht | ht
        · exact ⟨Or.inl (h3 t ht).1, (h3 t ht).2⟩
        · rw [List.mem_singleton.mp ht]
          exact ⟨Or.inr rfl, hp⟩
      · exact ⟨Or.inl (h3 t ht).1, (h3 t ht).2⟩

theorem step_txn_inv (K : Consts) (w : World) (env : DbEnvInternal) (s s1 : TxnSys)
    (q : Option Nat) (hinv : TxnInv s) (hn : s.next_txn + 1 < 2 ^ 64)
    (h : stepTxn K w env s q = some s1) :
    TxnInv s1 ∧ s.next_txn ≤ s1.next_txn ∧ s1.next_txn ≤ s.next_txn + 1 := by
  cases q with
  | none =>
    cases hb : __toku_txn_begin K w env s.next_txn .null 0 with
    | none =>
      simp only [stepTxn, hb] at h
      exact absurd h (by simp)
    | some r =>
      simp only [stepTxn, hb] at h
      rw [← Option.some.inj h]
      exact txn_inv_begin s r none hinv hn (fun p hp => Option.noConfusion hp)
        (txn_begin_cases K w env _ _ _ r hb)
  | some i =>
    cases hg : s.txns.get? i with
    | none =>
      simp only [stepTxn, hg] at h
      rw [← Option.some.inj h]
      exact ⟨hinv, le_refl _, Nat.le_succ _⟩
    | some p =>
      cases hb : __toku_txn_begin K w env s.next_txn p.txn 0 with
      | none =>
        simp only [stepTxn, hg, hb] at h
        exact absurd h (by simp)
      | some r =>
        simp only [stepTxn, hg, hb] at h
        rw [← Option.some.inj h]
        have hpm : p ∈ s.txns := List.get?_mem hg
        have hpid : p.id < s.next_txn := hinv.1 p.id (hinv.2.2 p hpm).1
        exact txn_inv_begin s r (some p.id) hinv hn
          (fun q hq => by rw [← Option.some.inj hq]; exact hpid)
          (txn_begin_cases K w env _ _ _ r hb)

theorem run_txn_inv (K : Consts) (w : World) (env : DbEnvInternal) (reqs : List (Option Nat)) :
    ∀ (s : TxnSys), TxnInv s → s.next_txn + reqs.length < 2 ^ 64 →
      TxnInv (runTxn K w env s reqs) := by
  induction reqs with
  | nil => intro s hinv _; exact hinv
  | cons q qs ih =>
    intro s hinv hn
    simp only [List.length_cons] at hn
    simp only [runTxn]
    cases hs : stepTxn K w env s q with
    | none => exact hinv
    | some s1 =>
      obtain ⟨h1, _, h3⟩ := step_txn_inv K w env s s1 q hinv (by omega) hs
      exact ih s1 h1 (by omega)

/-- C14: for every sequence of `txn_begin` calls that does not wrap the 64-bit counter, the
identifiers handed to the Logger are strictly increasing in call order, so no identifier is
handed out twice, and every Transaction begun with a parent has an identifier strictly
greater than the one its parent was begun with. -/
theorem txn_ids_strictly_increase (K : Consts) (w : World) (env : DbEnvInternal) (n0 : Nat)
    (reqs : List (Option Nat)) (hwrap : n0 + reqs.length < 2 ^ 64) :
    (beginIds (runTxn K w env ⟨n0, [], []⟩ reqs).calls).Pairwise (fun a b => a < b) ∧
      (beginIds (runTxn K w env ⟨n0, [], []⟩ reqs).calls).Nodup ∧
      ∀ r ∈ (runTxn K w env ⟨n0, [], []⟩ reqs).txns,
        r.id ∈ beginIds (runTxn K w env ⟨n0, [], []⟩ reqs).calls ∧
        ∀ p, r.parent_id = some p → p < r.id := by
  have h0 : TxnInv ⟨n0, [], []⟩ :=
    ⟨fun i hi => absurd hi (List.not_mem_nil i), List.Pairwise.nil,
      fun r hr => absurd hr (List.not_mem_nil r)⟩
  obtain ⟨_, h2, h3⟩ := run_txn_inv K w env reqs _ h0 hwrap
  exact ⟨h2, h2.imp (fun hab => Nat.ne_of_lt hab), h3⟩

theorem txn_ids_strictly_increase_witness :
    (beginIds (runTxn K0 w0 envOpen ⟨0, [], []⟩ [none, some 0, some 1, none]).calls).Pairwise
        (fun a b => a < b) ∧
      (beginIds (runTxn K0 w0 envOpen ⟨0, [], []⟩ [none, some 0, some 1, none]).calls).Nodup ∧
      ∀ r ∈ (runTxn K0 w0 envOpen ⟨0, [], []⟩ [none, some 0, some 1, none]).txns,
        r.id ∈ beginIds (runTxn K0 w0 envOpen ⟨0, [], []⟩ [none, some 0, some 1, none]).calls ∧
        ∀ p, r.parent_id = some p → p < r.id :=
  txn_ids_strictly_increase K0 w0 envOpen 0 [none, some 0, some 1, none] (by decide)

/-! ## A `DB_CONFIG` line with an unknown command -/

theorem process_line_unknown (w : World) (env : DbEnvInternal) (cmd : CStr) (l : List Char)
    (hcmd : isUnknownCommand cmd = true) (hl : isDirective cmd l = true) :
    process_line w env l = (-1, env) := by
  simp only [isUnknownCommand, Bool.and_eq_true, decide_eq_true_eq] at hcmd
  obtain ⟨⟨⟨⟨⟨hne, hall⟩, hhash⟩, hd⟩, ht⟩, hlg⟩ := hcmd
  have e := split_line_isDirective cmd l hne hall hl
  have hlen : ¬ (cmd.length = 0 ∨ cmd.head? = some (Char.ofNat 35)) := by
    rintro (h | h)
    · exact hne (List.length_eq_zero.mp h)
    · exact hhash h
  unfold process_line
  simp only [e, hlen, if_false, db_env_parse_config_line, hd, ht, hlg]

theorem process_line_cachetable (w : World) (env : DbEnvInternal) (l : List Char) :
    (process_line w env l).2.cachetable = env.cachetable := by
  unfold process_line db_env_parse_config_line __toku_db_env_set_data_dir
    __toku_db_env_set_tmp_dir __toku_db_env_set_lg_dir
  simp only []
  split_ifs <;> rfl

theorem read_loop_cachetable (w : World) (fe : Option Int) :
    ∀ (input : List Char) (env : DbEnvInternal) (bs : Nat) (acc : List Char),
      (read_loop w fe env bs acc input).2.cachetable = env.cachetable := by
  intro input
  induction input with
  | nil =>
    intro env bs acc
    cases fe with
    | none => simp only [read_loop]; exact process_line_cachetable w env acc
    | some e => simp only [read_loop]
  | cons ch rest ih =>
    intro env bs acc
    simp only [read_loop]
    split_ifs
    · exact process_line_cachetable w env acc
    · rw [ih, process_line_cachetable]
    · exact ih _ _ _
    · rfl
    · exact ih _ _ _

theorem read_config_cachetable (w : World) (env : DbEnvInternal) (flags : Nat) :
    (db_env_read_config w env flags).2.cachetable = env.cachetable := by
  unfold db_env_read_config
  split
  · rfl
  · split
    · rfl
    · by_cases hm : (!w.malloc_ok (2 ^ 10)) = true
      · rw [if_pos hm]
      · rw [if_neg hm]
        exact read_loop_cachetable w _ _ _ _ _

theorem process_lines_unknown (w : World) (before after : List (List Char)) (bad : List Char)
    (cmd : CStr) (hcmd : isUnknownCommand cmd = true) (hbad : isDirective cmd bad = true)
    (env : DbEnvInternal) : (process_lines w env (before ++ [bad] ++ after)).1 ≠ 0 := by
  rw [List.append_assoc, process_lines_append]
  split_ifs with hb
  · exact hb
  · simp [process_lines, process_line_unknown w _ cmd bad hcmd hbad]

theorem read_loop_unknown (w : World) (before after : List (List Char)) (bad : List Char)
    (cmd : CStr) (hcmd : isUnknownCommand cmd = true) (hbad : isDirective cmd bad = true)
    (hnl : ∀ l ∈ before ++ [bad] ++ after, ∀ c ∈ l, c ≠ Char.ofNat 10)
    (env : DbEnvInternal) (bs : Nat) :
    (read_loop w none env bs [] (joinLines (before ++ [bad] ++ after))).1 ≠ 0 := by
  intro h
  have e := read_loop_lines w _ (by simp) hnl env bs h
  rw [e] at h
  exact process_lines_unknown w before after bad cmd hcmd hbad env h

theorem read_loop_line_cases (w : World) (fe : Option Int) (env : DbEnvInternal)
    (rest : List Char) :
    ∀ (line : List Char), (∀ c ∈ line, c ≠ Char.ofNat 10) → ∀ (bs : Nat) (acc : List Char),
      read_loop w fe env bs acc (line ++ Char.ofNat 10 :: rest) = (ENOMEM, env) ∨
        ∃ bs1, read_loop w fe env bs acc (line ++ Char.ofNat 10 :: rest)
          = if (process_line w env (acc ++ line)).1 ≠ 0 then process_line w env (acc ++ line)
            else read_loop w fe (process_line w env (acc ++ line)).2 bs1 [] rest := by
  intro line
  induction line with
  | nil =>
    intro _ bs acc
    right
    refine ⟨bs, ?_⟩
    simp only [List.nil_append, List.append_nil, read_loop, if_true]
  | cons c line ih =>
    intro hnl bs acc
    have hc : c ≠ Char.ofNat 10 := hnl c (List.mem_cons_self _ _)
    have hl : ∀ d ∈ line, d ≠ Char.ofNat 10 := fun d hd => hnl d (List.mem_cons_of_mem _ hd)
    have e : acc ++ c :: line = (acc ++ [c]) ++ line := by simp
    simp only [List.cons_append, read_loop, hc, if_false]
    rw [e]
    by_cases h1 : acc.length + 1 ≥ bs
    · by_cases h2 : w.realloc_ok (bs * 2) = true
      · simp only [h1, h2, if_true]
        exact ih hl _ _
      · simp only [h1, h2, if_true, Bool.false_eq_true, if_false]
        exact Or.inl trivial
    · simp only [h1, if_false]
      exact ih hl _ _

theorem read_loop_last_cases (w : World) (env : DbEnvInternal) :
    ∀ (line : List Char), (∀ c ∈ line, c ≠ Char.ofNat 10) → ∀ (bs : Nat) (acc : List Char),
      read_loop w none env bs acc line = (ENOMEM, env) ∨
        read_loop w none env bs acc line = process_line w env (acc ++ line) := by
  intro line
  induction line with
  | nil =>
    intro _ bs acc
    right
    simp only [read_loop, List.append_nil]
  | cons c line ih =>
    intro hnl bs acc
    have hc : c ≠ Char.ofNat 10 := hnl c (List.mem_cons_self _ _)
    have hl : ∀ d ∈ line, d ≠ Char.ofNat 10 := fun d hd => hnl d (List.mem_cons_of_mem _ hd)
    have e : acc ++ c :: line = (acc ++ [c]) ++ line := by simp
    simp only [read_loop, hc, if_false]
    rw [e]
    by_cases h1 : acc.length + 1 ≥ bs
    · by_cases h2 : w.realloc_ok (bs * 2) = true
      · simp only [h1, h2, if_true]
        exact ih hl _ _
      · simp only [h1, h2, if_true, Bool.false_eq_true, if_false]
        exact Or.inl trivial
    · simp only [h1, if_false]
      exact ih hl _ _

theorem joinLines_cons (l : List Char) (t : List (List Char)) (ht : t ≠ []) :
    joinLines (l :: t) = l ++ Char.ofNat 10 :: joinLines t := by
  cases t with
  | nil => exact absurd rfl ht
  | cons a as => rfl

/-- When only blank and comment lines precede a line with an unknown command, the reading
loop ends at that line, or at a failed `toku_realloc` before it, with the Environment as
it was. -/
theorem read_loop_skips_to_unknown (w : World) (after : List (List Char)) (bad : List Char)
    (cmd : CStr) (hcmd : isUnknownCommand cmd = true) (hbad : isDirective cmd bad = true)
    (env : DbEnvInternal) :
    ∀ (before : List (List Char)),
      (∀ l ∈ before, isBlank l = true ∨ isComment l = true) →
      (∀ l ∈ before ++ [bad] ++ after, ∀ c ∈ l, c ≠ Char.ofNat 10) → ∀ (bs : Nat),
      read_loop w none env bs [] (joinLines (before ++ [bad] ++ after)) = (ENOMEM, env) ∨
        read_loop w none env bs [] (joinLines (before ++ [bad] ++ after)) = (-1, env) := by
  have hp := process_line_unknown w env cmd bad hcmd hbad
  intro before
  induction before with
  | nil =>
    intro _ hnl bs
    have hb : ∀ c ∈ bad, c ≠ Char.ofNat 10 := hnl bad (by simp)
    cases after with
    | nil =>
      rcases read_loop_last_cases w env bad hb bs [] with h | h
      · exact Or.inl h
      · right
        rw [List.nil_append] at h
        show read_loop w none env bs [] bad = (-1, env)
        rw [h, hp]
    | cons a as =>
      have e : joinLines ([] ++ [bad] ++ a :: as) = bad ++ Char.ofNat 10 :: joinLines (a :: as) :=
        rfl
      rw [e]
      rcases read_loop_line_cases w none env _ bad hb bs [] with h | ⟨bs1, h⟩
      · exact Or.inl h
      · right
        rw [h, List.nil_append, hp]
        simp
  | cons b before ih =>
    intro hbl hnl bs
    have hb : ∀ c ∈ b, c ≠ Char.ofNat 10 := hnl b (by simp)
    have e : joinLines (b :: before ++ [bad] ++ after)
        = b ++ Char.ofNat 10 :: joinLines (before ++ [bad] ++ after) := by
      have : b :: before ++ [bad] ++ after = b :: (before ++ [bad] ++ after) := by simp
      rw [this]
      exact joinLines_cons b _ (by simp)
    have hpb : process_line w env b = (0, env) :=
      (hbl b (List.mem_cons_self _ _)).elim (process_line_blank w env b)
        (process_line_comment w env b)
    rw [e]
    rcases read_loop_line_cases w none env _ b hb bs [] with h | ⟨bs1, h⟩
    · exact Or.inl h
    · rw [h, List.nil_append, hpb]
      simp only [ne_eq, not_true_eq_false, if_false]
      exact ih (fun l hl => hbl l (List.mem_cons_of_mem _ hl))
        (fun l hl => hnl l (by
          simp only [List.cons_append, List.mem_cons]
          exact Or.inr hl)) bs1

theorem read_config_unknown (w : World) (env : DbEnvInternal) (home : CStr) (flags : Nat)
    (f : ConfigFile) (before after : List (List Char)) (bad : List Char) (cmd : CStr)
    (hdir : env.dir = some home)
    (hfopen : ∀ p, construct_full_name w home (lit "DB_CONFIG") = some p →
      w.fopen p = Except.ok f)
    (hcontent : f.content = joinLines (before ++ [bad] ++ after))
    (hferr : f.ferror = none)
    (hnl : ∀ l ∈ before ++ [bad] ++ after, ∀ c ∈ l, c ≠ Char.ofNat 10)
    (hcmd : isUnknownCommand cmd = true) (hbad : isDirective cmd bad = true) :
    (db_env_read_config w env flags).1 ≠ 0 ∧
      ((∀ l ∈ before, isBlank l = true ∨ isComment l = true) →
        (db_env_read_config w env flags).2 = env) := by
  unfold db_env_read_config
  simp only [hdir, Option.getD_some]
  cases hc : construct_full_name w home (lit "DB_CONFIG") with
  | none => exact ⟨by simp [ENOMEM], fun _ => rfl⟩
  | some p =>
    simp only [hfopen p hc, hferr, hcontent]
    by_cases hm : (!w.malloc_ok (2 ^ 10)) = true
    · rw [if_pos hm]
      exact ⟨by simp [ENOMEM], fun _ => rfl⟩
    · rw [if_neg hm]
      have h1 := read_loop_unknown w before after bad cmd hcmd hbad hnl env (2 ^ 10)
      refine ⟨by simp only [ne_eq, h1, not_false_eq_true, if_true], fun hbl => ?_⟩
      rcases read_loop_skips_to_unknown w after bad cmd hcmd hbad env before hbl hnl (2 ^ 10)
        with h | h <;> rw [h]

/-- C11, as stated, fails: with `set_data_dir /x` before a line with the unknown command
`bogus`, `open` fails with `-1` and leaves the Environment unopened, but the data directory
stays `/x`; before the call it was null. -/
theorem config_error_keeps_data_dir :
    (__toku_db_env_open K0 wBad envNew (some (lit "/home")) 2097152 0).1 = -1 ∧
      db_env_opened (__toku_db_env_open K0 wBad envNew (some (lit "/home")) 2097152 0).2.1
        = false ∧
      (__toku_db_env_open K0 wBad envNew (some (lit "/home")) 2097152 0).2.1.data_dir
        = some (lit "/x") ∧
      envNew.data_dir = none := by
  decide

/-- C11 (amended): when `DB_CONFIG` holds a line whose command is none of `set_data_dir`,
`set_tmp_dir`, `set_lg_dir`, `open` of an unopened Environment returns a non-zero error,
calls neither Logger nor Cache and leaves the Environment unopened; when only blank and
comment lines precede that line, the data, temp and log directories are as before the
call. -/
theorem config_unknown_command_fails (K : Consts) (w : World) (env : DbEnvInternal)
    (home : CStr) (flags : Nat) (mode : Int) (f : ConfigFile)
    (before after : List (List Char)) (bad : List Char) (cmd : CStr)
    (hun : db_env_opened env = false)
    (hfopen : ∀ p, construct_full_name w home (lit "DB_CONFIG") = some p →
      w.fopen p = Except.ok f)
    (hcontent : f.content = joinLines (before ++ [bad] ++ after))
    (hferr : f.ferror = none)
    (hnl : ∀ l ∈ before ++ [bad] ++ after, ∀ c ∈ l, c ≠ Char.ofNat 10)
    (hcmd : isUnknownCommand cmd = true) (hbad : isDirective cmd bad = true) :
    (__toku_db_env_open K w env (some home) flags mode).1 ≠ 0 ∧
      db_env_opened (__toku_db_env_open K w env (some home) flags mode).2.1 = false ∧
      (__toku_db_env_open K w env (some home) flags mode).2.2 = [] ∧
      ((∀ l ∈ before, isBlank l = true ∨ isComment l = true) →
        (__toku_db_env_open K w env (some home) flags mode).2.1.data_dir = env.data_dir ∧
        (__toku_db_env_open K w env (some home) flags mode).2.1.tmp_dir = env.tmp_dir ∧
        (__toku_db_env_open K w env (some home) flags mode).2.1.lg_dir = env.lg_dir) := by
  have hct : env.cachetable = 0 := by simpa [db_env_opened] using hun
  have key : ∃ (r : Int) (e : DbEnvInternal),
      __toku_db_env_open K w env (some home) flags mode = (r, e, []) ∧ r ≠ 0 ∧
      e.cachetable = 0 ∧
      ((∀ l ∈ before, isBlank l = true ∨ isComment l = true) →
        e.data_dir = env.data_dir ∧ e.tmp_dir = env.tmp_dir ∧ e.lg_dir = env.lg_dir) := by
    by_cases hst : w.stat home = 0
    · by_cases hp : flags &&& K.DB_PRIVATE = 0
      · refine ⟨EINVAL, env, ?_, EINVAL_ne_zero, hct, fun _ => ⟨rfl, rfl, rfl⟩⟩
        unfold __toku_db_env_open
        simp only [hun, Bool.false_eq_true, if_false, hst, ne_eq, not_true_eq_false, hp,
          if_true]
      · cases hs : toku_strdup w home with
        | none =>
          refine ⟨ENOMEM, { env with dir := none }, ?_, by simp [ENOMEM], hct,
            fun _ => ⟨rfl, rfl, rfl⟩⟩
          unfold __toku_db_env_open
          simp only [hun, Bool.false_eq_true, if_false, hst, ne_eq, not_true_eq_false, hp, hs,
            Option.isNone_none, if_true]
        | some d =>
          have hd : d = home := by
            unfold toku_strdup at hs
            split_ifs at hs
            exact (Option.some.inj hs).symm
          subst hd
          obtain ⟨h1, h2⟩ := read_config_unknown w { env with dir := some d } d flags f before
            after bad cmd rfl hfopen hcontent hferr hnl hcmd hbad
          refine ⟨(db_env_read_config w { env with dir := some d } flags).1,
            { (db_env_read_config w { env with dir := some d } flags).2 with dir := none },
            ?_, h1, ?_, fun hbl => ?_⟩
          · unfold __toku_db_env_open
            simp only [hun, Bool.false_eq_true, if_false, hst, ne_eq, not_true_eq_false, hp, hs,
              Option.isNone_some, h1, not_false_eq_true, if_true]
          · show (db_env_read_config w { env with dir := some d } flags).2.cachetable = 0
            rw [read_config_cachetable]
            exact hct
          · rw [h2 hbl]
            exact ⟨rfl, rfl, rfl⟩
    · refine ⟨w.stat home, env, ?_, hst, hct, fun _ => ⟨rfl, rfl, rfl⟩⟩
      unfold __toku_db_env_open
      simp only [hun, Bool.false_eq_true, if_false, ne_eq, hst, not_false_eq_true, if_true]
  obtain ⟨r, e, heq, hr, hc, hd⟩ := key
  rw [heq]
  exact ⟨hr, by simp [db_env_opened, hc], rfl, hd⟩

theorem config_unknown_command_fails_witness :
    (__toku_db_env_open K0 (worldWith "# c\n\nbogus 1\nset_data_dir /x") envOld
        (some (lit "/home")) 2097152 0).1 ≠ 0 ∧
      db_env_opened (__toku_db_env_open K0 (worldWith "# c\n\nbogus 1\nset_data_dir /x") envOld
        (some (lit "/home")) 2097152 0).2.1 = false ∧
      (__toku_db_env_open K0 (worldWith "# c\n\nbogus 1\nset_data_dir /x") envOld
        (some (lit "/home")) 2097152 0).2.2 = [] ∧
      ((∀ l ∈ [lit "# c", []], isBlank l = true ∨ isComment l = true) →
        (__toku_db_env_open K0 (worldWith "# c\n\nbogus 1\nset_data_dir /x") envOld
          (some (lit "/home")) 2097152 0).2.1.data_dir = envOld.data_dir ∧
        (__toku_db_env_open K0 (worldWith "# c\n\nbogus 1\nset_data_dir /x") envOld
          (some (lit "/home")) 2097152 0).2.1.tmp_dir = envOld.tmp_dir ∧
        (__toku_db_env_open K0 (worldWith "# c\n\nbogus 1\nset_data_dir /x") envOld
          (some (lit "/home")) 2097152 0).2.1.lg_dir = envOld.lg_dir) :=
  config_unknown_command_fails K0 (worldWith "# c\n\nbogus 1\nset_data_dir /x") envOld
    (lit "/home") 2097152 0
    { content := lit "# c\n\nbogus 1\nset_data_dir /x", ferror := none, fclose := 0 }
    [lit "# c", []] [lit "set_data_dir /x"] (lit "bogus 1") (lit "bogus")
    (by decide) (fun _ _ => rfl) (by decide) rfl (by decide) (by decide) (by decide)

/-! ## The buffer of `construct_full_name_in_buf` -/

theorem joinInBuf_length (dir fname : CStr) :
    (joinInBuf dir fname).length
      = dir.length + (if dir.getLast? ≠ some (Char.ofNat 47) ∧ fname.head? ≠ some (Char.ofNat 47)
          then 1 else 0) + fname.length := by
  unfold joinInBuf
  split_ifs
  · simp; omega
  · simp

/-- With a buffer, `construct_full_name_in_buf` returns `0` and leaves the joined name when
that is shorter than `length`, and returns `ENAMETOOLONG` otherwise. -/
theorem construct_full_name_in_buf_result (dir fname : CStr) (n : Nat) :
    construct_full_name_in_buf dir fname true n
      = if (joinInBuf dir fname).length < n then (0, joinInBuf dir fname)
        else (ENAMETOOLONG, (construct_full_name_in_buf dir fname true n).2) := by
  have hlen := joinInBuf_length dir fname
  have h4 : (dir.length = 0 ∨ dir.getLast? ≠ some (Char.ofNat 47))
      ↔ dir.getLast? ≠ some (Char.ofNat 47) := by
    constructor
    · rintro (h | h)
      · rw [List.length_eq_zero.mp h]; simp
      · exact h
    · exact Or.inr
  have hhead : fname.head? = some (Char.ofNat 47) → 1 ≤ fname.length := by
    intro h
    cases fname with
    | nil => simp at h
    | cons c cs => simp
  by_cases hJ : (joinInBuf dir fname).length < n
  · rw [if_pos hJ]
    by_cases hs : dir.getLast? ≠ some (Char.ofNat 47) ∧ fname.head? ≠ some (Char.ofNat 47)
    · rw [if_pos hs] at hlen
      have h1 : dir.take (n - 1) = dir := List.take_of_length_le (by omega)
      have h2 : ¬ dir.length ≥ n := by omega
      have h3 : ¬ dir.length + 1 = n := by omega
      have h5 : fname.take (n - (dir.length + 1) - 1) = fname :=
        List.take_of_length_le (by omega)
      have h6 : ¬ dir.length + 1 + fname.length ≥ n := by omega
      unfold construct_full_name_in_buf joinInBuf
      simp only [Bool.not_true, Bool.false_eq_true, if_false, h1, h2, h3, and_false, h4]
      rw [if_pos hs, if_pos hs, if_pos hs, if_neg h6, h5]
    · rw [if_neg hs] at hlen
      have h1 : dir.take (n - 1) = dir := List.take_of_length_le (by omega)
      have h2 : ¬ dir.length ≥ n := by omega
      have h3 : ¬ (dir.getLast? ≠ some (Char.ofNat 47) ∧ dir.length + 1 = n) := by
        rintro ⟨ha, hb⟩
        have : fname.head? = some (Char.ofNat 47) := by
          by_contra hc
          exact hs ⟨ha, hc⟩
        have := hhead this
        omega
      have h5 : fname.take (n - dir.length - 1) = fname := List.take_of_length_le (by omega)
      have h6 : ¬ dir.length + fname.length ≥ n := by omega
      unfold construct_full_name_in_buf joinInBuf
      simp only [Bool.not_true, Bool.false_eq_true, if_false, h1, h2, h4]
      rw [if_neg h3, if_neg hs, if_neg hs, if_neg hs, if_neg h6, h5, List.append_nil]
  · rw [if_neg hJ]
    have hfst : (construct_full_name_in_buf dir fname true n).1 = ENAMETOOLONG := by
      unfold construct_full_name_in_buf
      simp only [Bool.not_true, Bool.false_eq_true, if_false]
      by_cases h2 : dir.length ≥ n
      · rw [if_pos h2]
      · rw [if_neg h2]
        have h1 : dir.take (n - 1) = dir := List.take_of_length_le (by omega)
        simp only [h1, h4]
        by_cases h3 : dir.getLast? ≠ some (Char.ofNat 47) ∧ dir.length + 1 = n
        · rw [if_pos h3]
        · rw [if_neg h3]
          by_cases hs : dir.getLast? ≠ some (Char.ofNat 47) ∧
              fname.head? ≠ some (Char.ofNat 47)
          · rw [if_pos hs] at hlen
            have h6 : dir.length + 1 + fname.length ≥ n := by omega
            rw [if_pos hs, if_pos hs, if_pos h6]
          · rw [if_neg hs] at hlen
            have h6 : dir.length + fname.length ≥ n := by omega
            rw [if_neg hs, if_neg hs, if_pos h6]
    exact Prod.ext hfst rfl

/-- C30: when its allocation succeeds, `construct_full_name(dir, fname)` is non-null: in
its buffer of `strlen(dir) + strlen(fname) + 2` bytes `construct_full_name_in_buf` returns
`0`, never `ENAMETOOLONG`.  With a buffer of any size `n`, `construct_full_name_in_buf`
returns `0` iff the joined name is shorter than `n`, and then the buffer holds the joined
name; otherwise it returns `ENAMETOOLONG`. -/
theorem construct_full_name_buffer_suffices (w : World) (dir fname : CStr) :
    (w.malloc_ok ((if fname.head? = some (Char.ofNat 47) then [] else dir).length
          + fname.length + 2) = true →
        (construct_full_name w dir fname).isSome = true) ∧
      (construct_full_name_in_buf dir fname true (dir.length + fname.length + 2)).1 = 0 ∧
      ∀ n : Nat,
        ((construct_full_name_in_buf dir fname true n).1 = 0
            ↔ (joinInBuf dir fname).length < n) ∧
          ((joinInBuf dir fname).length < n →
            construct_full_name_in_buf dir fname true n = (0, joinInBuf dir fname)) ∧
          (¬ (joinInBuf dir fname).length < n →
            (construct_full_name_in_buf dir fname true n).1 = ENAMETOOLONG) := by
  refine ⟨fun hm => ?_, ?_, fun n => ⟨?_, fun h => ?_, fun h => ?_⟩⟩
  · unfold construct_full_name
    simp only []
    rw [construct_full_name_of_dir, hm]
    simp
  · rw [construct_full_name_in_buf_fits dir fname _ (le_refl _)]
  · rw [construct_full_name_in_buf_result]
    by_cases h : (joinInBuf dir fname).length < n
    · simp [h]
    · simp [h, ENAMETOOLONG]
  · rw [construct_full_name_in_buf_result, if_pos h]
  · rw [construct_full_name_in_buf_result, if_neg h]

/-- C29 fails on the code: for the Environment directory `/home` and the absolute file name
`/abs/t1` without `dbname`, `remove` unlinks `/home/abs/t1`, while `open` computes
`/abs/t1`; for the relative name `t1` both use `/home/t1`. -/
theorem db_remove_absolute_name_differs :
    (__toku_db_remove K0 w0 (withRef envOpen 2) dbNew (lit "/abs/t1") none 0).2.2.2
        = [Call.close_brt 9, Call.free_db, Call.unlink (lit "/home/abs/t1")] ∧
      construct_full_name w0 (envOpen.dir.getD []) (lit "/abs/t1") = some (lit "/abs/t1") ∧
      (__toku_db_remove K0 w0 (withRef envOpen 2) dbNew (lit "t1") none 0).2.2.2
        = [Call.close_brt 9, Call.free_db, Call.unlink (lit "/home/t1")] ∧
      construct_full_name w0 (envOpen.dir.getD []) (lit "t1") = some (lit "/home/t1") := by
  decide

/-! ## Database put -/

/-- C22, as stated, fails: `put` with flags `0` and `put` with flags `7` make the same
Tree call and return the same result; `brt_insert` is handed no flags. -/
theorem db_put_ignores_flags :
    __toku_db_put w0 dbOpen (.ptr 100 .null) [1] [2] 0
        = (0, [Call.brt_insert 9 [1] [2] 100]) ∧
      __toku_db_put w0 dbOpen (.ptr 100 .null) [1] [2] 7
        = (0, [Call.brt_insert 9 [1] [2] 100]) := by
  decide

/-- C22 (amended): for every db, txn, key, value and flags, `put` makes one call,
`brt_insert` with the Tree, the key, the value and the Transaction's Logger handle (the
null handle when `txn` is null), and returns its result; the flags are not handed to the
Tree and change nothing. -/
theorem db_put_delegates (w : World) (db : DbInternal) (txn : DbTxnPtr) (key data : List Nat)
    (flags : Nat) :
    __toku_db_put w db txn key data flags
        = (w.brt_insert db.brt key data (txnHandle txn),
            [Call.brt_insert db.brt key data (txnHandle txn)]) ∧
      txnHandle .null = 0 ∧
      (∀ tokutxn parent, txnHandle (.ptr tokutxn parent) = tokutxn) ∧
      ∀ flags2 : Nat,
        __toku_db_put w db txn key data flags2 = __toku_db_put w db txn key data flags :=
  ⟨rfl, rfl, fun _ _ => rfl, fun _ => rfl⟩

/-! ## Database open on an existing file -/

theorem land_cnot32_land_self (f c : Nat) : (f &&& cnot32 c) &&& c = 0 := by
  apply Nat.eq_of_testBit_eq
  intro i
  simp only [Nat.testBit_and, MyCompare.cnot32_testBit, Nat.testBit_mod_two_pow,
    Nat.zero_testBit]
  by_cases h : i < 32 <;> simp [h]

theorem land_cnot32_land_other (f c e : Nat) (h : f &&& e = 0) : (f &&& cnot32 c) &&& e = 0 := by
  apply Nat.eq_of_testBit_eq
  intro i
  have hi : (f &&& e).testBit i = false := by rw [h]; exact Nat.zero_testBit i
  simp only [Nat.testBit_and] at hi
  simp only [Nat.testBit_and, Nat.zero_testBit]
  cases hf : f.testBit i <;> cases he : e.testBit i <;> simp_all

/-- C26, as stated, fails: with the empty string as `dbname` (not a null `dbname`), an
existing file and `DB_CREATE`, `open` calls the Tree's open with the create flag on and
records the flags with `DB_CREATE` still set. -/
theorem db_open_empty_dbname_keeps_create :
    (__toku_db_open K0 w0 envOpen dbNew none (lit "t1") (some []) 0 K0.DB_CREATE 0).2.2
        = [Call.brt_open 9 (lit "/home/t1") (lit "t1") (some []) 1 0 5 0] ∧
      (__toku_db_open K0 w0 envOpen dbNew none (lit "t1") (some []) 0 K0.DB_CREATE 0).2.1.open_flags
        &&& K0.DB_CREATE = 1 := by
  decide

/-- C26 (amended): on an unopened Database, with a file name whose full path exists, a null
`dbname` and flags that hold `DB_CREATE` but not `DB_EXCL`, `open` calls the Tree's open
with the create flag and the exclusive flag off, and the open flags it records have
`DB_CREATE` cleared. -/
theorem db_open_downgrades_create (K : Consts) (w : World) (env : DbEnvInternal)
    (db : DbInternal) (txn : Option Nat) (fname full : CStr) (dbtype flags : Nat) (mode : Int)
    (hun : db.full_fname = none)
    (hfull : construct_full_name w (env.dir.getD []) fname = some full)
    (hex : w.stat full = 0) (hm : w.malloc_ok 1 = true)
    (hc : flags &&& K.DB_CREATE ≠ 0) (he : flags &&& K.DB_EXCL = 0) :
    (__toku_db_open K w env db txn fname none dbtype flags mode).2.2
        = [Call.brt_open db.brt full fname none 0 0 env.cachetable (txn.getD 0)] ∧
      (__toku_db_open K w env db txn fname none dbtype flags mode).2.1.open_flags
        = flags &&& cnot32 K.DB_CREATE ∧
      (__toku_db_open K w env db txn fname none dbtype flags mode).2.1.open_flags
        &&& K.DB_CREATE = 0 ∧
      (__toku_db_open K w env db txn fname none dbtype flags mode).1
        = w.brt_open db.brt full fname none 0 0 env.cachetable (txn.getD 0) := by
  have h1 := land_cnot32_land_self flags K.DB_CREATE
  have h2 := land_cnot32_land_other flags K.DB_CREATE K.DB_EXCL he
  have key : __toku_db_open K w env db txn fname none dbtype flags mode
      = (if w.brt_open db.brt full fname none 0 0 env.cachetable (txn.getD 0) ≠ 0 then
          (w.brt_open db.brt full fname none 0 0 env.cachetable (txn.getD 0),
            { db with open_flags := flags &&& cnot32 K.DB_CREATE, open_mode := mode,
                      database_name := none, full_fname := none },
            [Call.brt_open db.brt full fname none 0 0 env.cachetable (txn.getD 0)])
        else
          (0,
            { db with open_flags := flags &&& cnot32 K.DB_CREATE, open_mode := mode,
                      database_name := some [], full_fname := some full },
            [Call.brt_open db.brt full fname none 0 0 env.cachetable (txn.getD 0)])) := by
    unfold __toku_db_open
    simp [hun, hfull, hex, hc, he, toku_strdup, hm, h1, h2]
  rw [key]
  split_ifs with hr
  · exact ⟨rfl, rfl, h1, rfl⟩
  · exact ⟨rfl, rfl, h1, (not_not.mp hr).symm⟩

theorem db_open_downgrades_create_witness :
    (__toku_db_open K0 w0 envOpen dbNew none (lit "t1") none 0 1 0).2.2
        = [Call.brt_open dbNew.brt (lit "/home/t1") (lit "t1") none 0 0 envOpen.cachetable
            ((none : Option Nat).getD 0)] ∧
      (__toku_db_open K0 w0 envOpen dbNew none (lit "t1") none 0 1 0).2.1.open_flags
        = 1 &&& cnot32 K0.DB_CREATE ∧
      (__toku_db_open K0 w0 envOpen dbNew none (lit "t1") none 0 1 0).2.1.open_flags
        &&& K0.DB_CREATE = 0 ∧
      (__toku_db_open K0 w0 envOpen dbNew none (lit "t1") none 0 1 0).1
        = w0.brt_open dbNew.brt (lit "/home/t1") (lit "t1") none 0 0 envOpen.cachetable
            ((none : Option Nat).getD 0) :=
  db_open_downgrades_create K0 w0 envOpen dbNew none (lit "t1") (lit "/home/t1") 0 1 0
    (by decide) (by decide) (by decide) (by decide) (by decide) (by decide)

/-! ## The Cache size budget -/

theorem process_line_cachetable_size (w : World) (env : DbEnvInternal) (l : List Char) :
    (process_line w env l).2.cachetable_size = env.cachetable_size := by
  unfold process_line db_env_parse_config_line __toku_db_env_set_data_dir
    __toku_db_env_set_tmp_dir __toku_db_env_set_lg_dir
  simp only []
  split_ifs <;> rfl

theorem read_loop_cachetable_size (w : World) (fe : Option Int) :
    ∀ (input : List Char) (env : DbEnvInternal) (bs : Nat) (acc : List Char),
      (read_loop w fe env bs acc input).2.cachetable_size = env.cachetable_size := by
  intro input
  induction input with
  | nil =>
    intro env bs acc
    cases fe with
    | none => simp only [read_loop]; exact process_line_cachetable_size w env acc
    | some e => simp only [read_loop]
  | cons ch rest ih =>
    intro env bs acc
    simp only [read_loop]
    split_ifs
    · exact process_line_cachetable_size w env acc
    · rw [ih, process_line_cachetable_size]
    · exact ih _ _ _
    · rfl
    · exact ih _ _ _

theorem read_config_cachetable_size (w : World) (env : DbEnvInternal) (flags : Nat) :
    (db_env_read_config w env flags).2.cachetable_size = env.cachetable_size := by
  unfold db_env_read_config
  split
  · rfl
  · split
    · rfl
    · by_cases hm : (!w.malloc_ok (2 ^ 10)) = true
      · rw [if_pos hm]
      · rw [if_neg hm]
        exact read_loop_cachetable_size w _ _ _ _ _

/-- A successful `env_open_tail` makes at most a Logger open and then, last, the Cache
creation with the Environment's size budget. -/
theorem env_open_tail_cache_call (K : Consts) (w : World) (env : DbEnvInternal) (flags : Nat)
    (h : (env_open_tail K w env flags).1 = 0) :
    ∃ pre lg, (env_open_tail K w env flags).2.2
        = pre ++ [Call.cachetable_create env.cachetable_size lg] ∧
      ∀ c ∈ pre, ∃ d, c = Call.logger_open d := by
  unfold env_open_tail at h ⊢
  simp only [] at h ⊢
  split_ifs at h ⊢ with h1
  all_goals
    first
    | contradiction
    | exact absurd h h1.2
    | exact ⟨_, _, rfl, fun c hc => ⟨_, List.mem_singleton.mp hc⟩⟩
    | exact ⟨[], _, rfl, fun c hc => absurd hc (List.not_mem_nil c)⟩

/-- A successful `__toku_db_env_open` ends with the Cache creation, with the size budget
the Environment had before the open. -/
theorem env_open_cache_call (K : Consts) (w : World) (env : DbEnvInternal) (home : Option CStr)
    (flags : Nat) (mode : Int) (h : (__toku_db_env_open K w env home flags mode).1 = 0) :
    ∃ pre lg, (__toku_db_env_open K w env home flags mode).2.2
        = pre ++ [Call.cachetable_create env.cachetable_size lg] ∧
      ∀ c ∈ pre, ∃ d, c = Call.logger_open d := by
  cases home with
  | none =>
    exfalso
    unfold __toku_db_env_open at h
    split_ifs at h <;> exact EINVAL_ne_zero h
  | some hm =>
    unfold __toku_db_env_open at h ⊢
    simp only [] at h ⊢
    by_cases h1 : db_env_opened env = true
    · rw [if_pos h1] at h
      exact absurd h EINVAL_ne_zero
    rw [if_neg h1] at h ⊢
    by_cases h2 : w.stat hm ≠ 0
    · rw [if_pos h2] at h
      exact absurd h h2
    rw [if_neg h2] at h ⊢
    by_cases h3 : flags &&& K.DB_PRIVATE = 0
    · rw [if_pos h3] at h
      exact absurd h EINVAL_ne_zero
    rw [if_neg h3] at h ⊢
    by_cases h4 : (toku_strdup w hm).isNone = true
    · rw [if_pos h4] at h
      have h6 : ENOMEM = 0 := h
      exact absurd h6 (by decide)
    rw [if_neg h4] at h ⊢
    by_cases h5 : (db_env_read_config w { env with dir := toku_strdup w hm } flags).1 ≠ 0
    · rw [if_pos h5] at h
      exact absurd h h5
    rw [if_neg h5] at h ⊢
    obtain ⟨pre, lg, e1, e2⟩ := env_open_tail_cache_call K w _ flags h
    refine ⟨pre, lg, ?_, e2⟩
    rw [e1]
    exact congrArg (fun z => pre ++ [Call.cachetable_create z lg])
      (read_config_cachetable_size w { env with dir := toku_strdup w hm } flags)

/-- C23: for `gbytes` and `bytes` below `2^32`, `set_cachesize(gbytes, bytes, n)` returns
`0`, and a successful `open` of the Environment it leaves ends with the Cache creation,
called with the size budget `gbytes * 2^30 + bytes`; that number is below `2^63`, so the
64-bit `long` holds it, and before the Cache creation there is at most the Logger open. -/
theorem cachesize_budget_exact (K : Consts) (w : World) (env : DbEnvInternal)
    (home : Option CStr) (flags : Nat) (mode : Int) (gbytes bytes : Nat) (ncache : Int)
    (hg : gbytes < 2 ^ 32) (hb : bytes < 2 ^ 32)
    (hopen : (__toku_db_env_open K w (__toku_db_env_set_cachesize env gbytes bytes ncache).2
      home flags mode).1 = 0) :
    (__toku_db_env_set_cachesize env gbytes bytes ncache).1 = 0 ∧
      (∃ pre lg,
        (__toku_db_env_open K w (__toku_db_env_set_cachesize env gbytes bytes ncache).2
          home flags mode).2.2
          = pre ++ [Call.cachetable_create ((gbytes * 2 ^ 30 + bytes : Nat) : Int) lg] ∧
        ∀ c ∈ pre, ∃ d, c = Call.logger_open d) ∧
      gbytes * 2 ^ 30 + bytes < 2 ^ 63 := by
  refine ⟨rfl, ?_, by omega⟩
  obtain ⟨pre, lg, e, hp⟩ := env_open_cache_call K w _ home flags mode hopen
  refine ⟨pre, lg, ?_, hp⟩
  rw [e]
  simp only [__toku_db_env_set_cachesize, Nat.shiftLeft_eq, Nat.mod_eq_of_lt hg,
    Nat.mod_eq_of_lt hb]

theorem cachesize_budget_exact_witness :
    (__toku_db_env_set_cachesize envNew 4294967295 4294967295 1).1 = 0 ∧
      (∃ pre lg,
        (__toku_db_env_open K0 w0 (__toku_db_env_set_cachesize envNew 4294967295 4294967295 1).2
          (some (lit "/home")) 2097152 0).2.2
          = pre ++ [Call.cachetable_create
              ((4294967295 * 2 ^ 30 + 4294967295 : Nat) : Int) lg] ∧
        ∀ c ∈ pre, ∃ d, c = Call.logger_open d) ∧
      4294967295 * 2 ^ 30 + 4294967295 < 2 ^ 63 :=
  cachesize_budget_exact K0 w0 envNew (some (lit "/home")) 2097152 0 4294967295 4294967295 1
    (by decide) (by decide) (by decide)

/-! ## Propagation of collaborator errors -/

theorem process_line_logger (w : World) (env : DbEnvInternal) (l : List Char) :
    (process_line w env l).2.logger = env.logger := by
  unfold process_line db_env_parse_config_line __toku_db_env_set_data_dir
    __toku_db_env_set_tmp_dir __toku_db_env_set_lg_dir
  simp only []
  split_ifs <;> rfl

theorem read_loop_logger (w : World) (fe : Option Int) :
    ∀ (input : List Char) (env : DbEnvInternal) (bs : Nat) (acc : List Char),
      (read_loop w fe env bs acc input).2.logger = env.logger := by
  intro input
  induction input with
  | nil =>
    intro env bs acc
    cases fe with
    | none => simp only [read_loop]; exact process_line_logger w env acc
    | some e => simp only [read_loop]
  | cons ch rest ih =>
    intro env bs acc
    simp only [read_loop]
    split_ifs
    · exact process_line_logger w env acc
    · rw [ih, process_line_logger]
    · exact ih _ _ _
    · rfl
    · exact ih _ _ _

theorem read_config_logger (w : World) (env : DbEnvInternal) (flags : Nat) :
    (db_env_read_config w env flags).2.logger = env.logger := by
  unfold db_env_read_config
  split
  · rfl
  · split
    · rfl
    · by_cases hm : (!w.malloc_ok (2 ^ 10)) = true
      · rw [if_pos hm]
      · rw [if_neg hm]
        exact read_loop_logger w _ _ _ _ _

/-- A Logger open that `env_open_tail` makes and that fails gives the result. -/
theorem env_open_tail_logger_error (K : Consts) (w : World) (env : DbEnvInternal)
    (flags : Nat) (d : CStr) (hc : Call.logger_open d ∈ (env_open_tail K w env flags).2.2)
    (he : (w.logger_open d env.logger).1 ≠ 0) :
    (env_open_tail K w env flags).1 = (w.logger_open d env.logger).1 := by
  unfold env_open_tail at hc ⊢
  simp only [] at hc ⊢
  split_ifs at hc ⊢ with h1 h2 h3
  all_goals simp at hc
  all_goals subst hc
  all_goals first
    | rfl
    | exact absurd (And.intro ‹_› he) h1

/-- The Cache creation that `env_open_tail` makes gives the result. -/
theorem env_open_tail_cache_error (K : Consts) (w : World) (env : DbEnvInternal)
    (flags : Nat) (sz : Int) (lg : Nat)
    (hc : Call.cachetable_create sz lg ∈ (env_open_tail K w env flags).2.2) :
    (env_open_tail K w env flags).1 = (w.cachetable_create env.cachetable sz lg).1 := by
  unfold env_open_tail at hc ⊢
  simp only [] at hc ⊢
  split_ifs at hc ⊢ with h1 h2 h3
  all_goals simp at hc
  all_goals obtain ⟨rfl, rfl⟩ := hc
  all_goals first
    | rfl
    | (symm; apply not_not.mp; assumption)

/-- An `open` of an Environment makes no collaborator call, or is `env_open_tail` on an
Environment with the same Logger and Cache handles. -/
theorem env_open_cases (K : Consts) (w : World) (env : DbEnvInternal) (home : Option CStr)
    (flags : Nat) (mode : Int) :
    (__toku_db_env_open K w env home flags mode).2.2 = [] ∨
      ∃ env2 : DbEnvInternal,
        __toku_db_env_open K w env home flags mode = env_open_tail K w env2 flags ∧
          env2.logger = env.logger ∧ env2.cachetable = env.cachetable := by
  cases home with
  | none =>
    left
    unfold __toku_db_env_open
    split_ifs <;> rfl
  | some hm =>
    unfold __toku_db_env_open
    simp only []
    by_cases h1 : db_env_opened env = true
    · rw [if_pos h1]; exact Or.inl rfl
    rw [if_neg h1]
    by_cases h2 : w.stat hm ≠ 0
    · rw [if_pos h2]; exact Or.inl rfl
    rw [if_neg h2]
    by_cases h3 : flags &&& K.DB_PRIVATE = 0
    · rw [if_pos h3]; exact Or.inl rfl
    rw [if_neg h3]
    by_cases h4 : (toku_strdup w hm).isNone = true
    · rw [if_pos h4]; exact Or.inl rfl
    rw [if_neg h4]
    by_cases h5 : (db_env_read_config w { env with dir := toku_strdup w hm } flags).1 ≠ 0
    · rw [if_pos h5]; exact Or.inl rfl
    rw [if_neg h5]
    exact Or.inr ⟨_, rfl, read_config_logger w { env with dir := toku_strdup w hm } flags,
      read_config_cachetable w { env with dir := toku_strdup w hm } flags⟩

/-- The Tree open that `__toku_db_open` makes gives the result. -/
theorem db_open_result_of_call (K : Consts) (w : World) (env : DbEnvInternal) (db : DbInternal)
    (txn : Option Nat) (fname : CStr) (dbname : Option CStr) (dbtype flags : Nat) (mode : Int)
    (b : Nat) (full fn : CStr) (dn : Option CStr) (cf ef ct tx : Nat)
    (hc : Call.brt_open b full fn dn cf ef ct tx
      ∈ (__toku_db_open K w env db txn fname dbname dbtype flags mode).2.2) :
    (__toku_db_open K w env db txn fname dbname dbtype flags mode).1
      = w.brt_open b full fn dn cf ef ct tx := by
  unfold __toku_db_open at hc ⊢
  simp only [] at hc ⊢
  generalize construct_full_name w (env.dir.getD []) fname = o at hc ⊢
  cases o with
  | none =>
    simp only [] at hc
    split_ifs at hc <;> simp at hc
  | some fl =>
    simp only [] at hc ⊢
    split_ifs at hc ⊢
    all_goals simp at hc
    all_goals obtain ⟨rfl, rfl, rfl, rfl, rfl, rfl, rfl, rfl⟩ := hc
    all_goals first
      | rfl
      | (symm; apply not_not.mp; assumption)

/-- The Logger call that `__toku_txn_begin` makes gives the result. -/
theorem txn_begin_result_of_call (K : Consts) (w : World) (env : DbEnvInternal)
    (next_txn : Nat) (stxn : DbTxnPtr) (flags : Nat) (r : Int × DbTxnPtr × Nat × List Call)
    (hr : __toku_txn_begin K w env next_txn stxn flags = some r) (p id lg : Nat)
    (hc : Call.tokutxn_begin p id lg ∈ r.2.2.2) : r.1 = (w.tokutxn_begin p id lg).1 := by
  unfold __toku_txn_begin at hr
  simp only [] at hr
  split_ifs at hr
  all_goals simp only [Option.some.injEq] at hr
  all_goals subst hr
  all_goals simp at hc
  all_goals obtain ⟨rfl, rfl, rfl⟩ := hc
  all_goals first
    | rfl
    | (symm; apply not_not.mp; assumption)

/-- The operations other than `db_create` and Database `cursor` return the result of the
collaborator call that decides them, unchanged.  A Tree open made by Database `open`, and
the Tree call of `put`, `get` (with flags `0`), `del`, `set_flags`, `set_pagesize`,
`set_bt_compare`, `set_dup_compare` and of Cursor `get`, `del` and `close` give the
operation's result; so does the Logger call of `txn_begin` and the Cache creation of
Environment `open`, and a Logger open of Environment `open` that fails gives its result.
Database `cursor`, once its two allocations succeeded, returns nothing when the Tree cursor
open fails, and `0` otherwise.  The Logger close that Environment `open` makes after a
failed Cache creation is not among these calls: its result is not read. -/
theorem collaborator_results_of_calls (K : Consts) (w : World) :
    (∀ (env : DbEnvInternal) (db : DbInternal) (txn : Option Nat) (fname : CStr)
        (dbname : Option CStr) (dbtype flags : Nat) (mode : Int) (b : Nat) (full fn : CStr)
        (dn : Option CStr) (cf ef ct tx : Nat),
        Call.brt_open b full fn dn cf ef ct tx
            ∈ (__toku_db_open K w env db txn fname dbname dbtype flags mode).2.2 →
          (__toku_db_open K w env db txn fname dbname dbtype flags mode).1
            = w.brt_open b full fn dn cf ef ct tx) ∧
      (∀ (db : DbInternal) (txn : DbTxnPtr) (key data : List Nat) (flags : Nat),
        __toku_db_put w db txn key data flags
          = (w.brt_insert db.brt key data (txnHandle txn),
              [Call.brt_insert db.brt key data (txnHandle txn)])) ∧
      (∀ (db : DbInternal) (txn : DbTxnPtr) (key : List Nat),
        __toku_db_get w db txn key 0
          = some ((w.brt_lookup db.brt key).1, (w.brt_lookup db.brt key).2,
              [Call.brt_lookup db.brt key])) ∧
      (∀ (db : DbInternal) (txn : DbTxnPtr) (key : List Nat) (flags : Nat),
        __toku_db_del w db txn key flags
          = (w.brt_delete db.brt key, [Call.brt_delete db.brt key])) ∧
      (∀ (db : DbInternal) (flags : Nat),
        ∃ tflags, __toku_db_set_flags K w db flags
          = (w.brt_set_flags db.brt tflags, [Call.brt_set_flags db.brt tflags])) ∧
      (∀ (db : DbInternal) (pagesize : Nat),
        __toku_db_set_pagesize w db pagesize
          = (w.brt_set_nodesize db.brt pagesize, [Call.brt_set_nodesize db.brt pagesize])) ∧
      (∀ (db : DbInternal) (f : Nat),
        __toku_db_set_bt_compare w db f
            = (w.brt_set_bt_compare db.brt f, [Call.brt_set_bt_compare db.brt f]) ∧
          __toku_db_set_dup_compare w db f
            = (w.brt_set_dup_compare db.brt f, [Call.brt_set_dup_compare db.brt f])) ∧
      (∀ (c : DbcInternal) (key data : List Nat) (flag : Nat),
        (__toku_c_get w c key data flag).1
            = (w.brt_cursor_get c.c key data flag (txnHandle c.txn)).1 ∧
          (__toku_c_get w c key data flag).2.2
            = [Call.brt_cursor_get c.c key data flag (txnHandle c.txn)] ∧
          __toku_c_del w c flag
            = (w.brt_cursor_delete c.c flag, [Call.brt_cursor_delete c.c flag]) ∧
          __toku_c_close w c
            = (w.brt_cursor_close c.c, [Call.brt_cursor_close c.c, Call.free_dbc])) ∧
      (∀ (env : DbEnvInternal) (next_txn : Nat) (stxn : DbTxnPtr) (flags : Nat)
        (r : Int × DbTxnPtr × Nat × List Call) (p id lg : Nat),
        __toku_txn_begin K w env next_txn stxn flags = some r →
          Call.tokutxn_begin p id lg ∈ r.2.2.2 → r.1 = (w.tokutxn_begin p id lg).1) ∧
      (∀ (env : DbEnvInternal) (home : Option CStr) (flags : Nat) (mode : Int),
        (∀ d, Call.logger_open d ∈ (__toku_db_env_open K w env home flags mode).2.2 →
          (w.logger_open d env.logger).1 ≠ 0 →
            (__toku_db_env_open K w env home flags mode).1 = (w.logger_open d env.logger).1) ∧
        (∀ sz lg, Call.cachetable_create sz lg
            ∈ (__toku_db_env_open K w env home flags mode).2.2 →
          (__toku_db_env_open K w env home flags mode).1
            = (w.cachetable_create env.cachetable sz lg).1)) ∧
      (∀ (db : DbInternal) (txn : DbTxnPtr) (flags : Nat),
        w.malloc_ok K.sizeof_DBC = true → w.malloc_ok K.sizeof_dbc_internal = true →
          __toku_db_cursor K w db txn flags
            = (if (w.brt_cursor db.brt).1 ≠ 0 then none
              else some (0, some { c := (w.brt_cursor db.brt).2, txn := txn },
                [Call.brt_cursor db.brt]))) := by
  refine ⟨?_, fun _ _ _ _ _ => rfl, fun _ _ _ => rfl, fun _ _ _ _ => rfl,
    fun _ _ => ⟨_, rfl⟩, fun _ _ => rfl, fun _ _ => ⟨rfl, rfl⟩,
    fun _ _ _ _ => ⟨rfl, rfl, rfl, rfl⟩, ?_, ?_, ?_⟩
  · intro env db txn fname dbname dbtype flags mode b full fn dn cf ef ct tx hc
    exact db_open_result_of_call K w env db txn fname dbname dbtype flags mode b full fn dn
      cf ef ct tx hc
  · intro env next_txn stxn flags r p id lg hr hc
    exact txn_begin_result_of_call K w env next_txn stxn flags r hr p id lg hc
  · intro env home flags mode
    rcases env_open_cases K w env home flags mode with h | ⟨env2, h, hl, hct⟩
    · refine ⟨fun d hd => ?_, fun sz lg hd => ?_⟩
      · rw [h] at hd; exact absurd hd (List.not_mem_nil _)
      · rw [h] at hd; exact absurd hd (List.not_mem_nil _)
    · rw [h, ← hl, ← hct]
      exact ⟨fun d hd he => env_open_tail_logger_error K w env2 flags d hd he,
        fun sz lg hd => env_open_tail_cache_error K w env2 flags sz lg hd⟩
  · intro db txn flags h1 h2
    unfold __toku_db_cursor
    simp [h1, h2]

/-- After a failed Cache creation Environment `open` closes the Logger and returns the Cache
error, whatever the Logger close returns: here the Cache creation fails with `7`, the
Logger close with `9`, and `open` returns `7`. -/
theorem env_open_returns_cache_error :
    __toku_db_env_open K0 wCacheFails envNew (some (lit "/home")) 2097152 0
      = (7, { envNew with open_flags := 2097152 },
          [Call.cachetable_create 0 0, Call.logger_close 0]) := by
  decide

/-- C21 fails on the code: when the Tree create returns a non-zero `r`, `db_create` returns
`ENOMEM`, not `r`; and when the Tree cursor open returns a non-zero `r`, Database `cursor`
does not return at all.  Here the Tree create returns `5` on the opened Environment
`envOpen` with reference count `1`: `db_create` makes the Tree create, releases the
Environment reference and returns `12`.  And the Tree cursor open returns `5` on the open
Database `dbOpen`: `assert(r == 0)` ends the process.  In `w0`, where both calls return
`0`, both operations return `0`. -/
theorem db_create_translates_tree_error :
    (wCreateFails.brt_create 0).1 = 5 ∧
      db_create K0 wCreateFails (some envOpen) 0
        = (12, none, some envOpen, [Call.brt_create]) ∧
      (db_create K0 w0 (some envOpen) 0).1 = 0 ∧
      (wCursorFails.brt_cursor dbOpen.brt).1 = 5 ∧
      __toku_db_cursor K0 wCursorFails dbOpen .null 0 = none ∧
      __toku_db_cursor K0 w0 dbOpen .null 0
        = some (0, some { c := 11, txn := .null }, [Call.brt_cursor 9]) := by
  decide

end Ydb
